import Mathlib

/-!
# Frame codec of the DHT11 flooding-mesh node (`src/main.cpp`)

A shallow embedding of the frame encoder (`build_data_frame`, `get_message`), the
checksum engine (`checksum`), the decoder (`decode_msg`), the validator (`validate`),
the dispatch router (`received_callback`), the identity computed by `setup` and the
test run of `loop`.

Conventions of the embedding:

* a `char` is a natural number in `0..255` (the target ABI has an unsigned `char`);
* a `char` buffer is a `List Nat` holding all the bytes of the buffer, so its length
  is the capacity of the buffer; a read or a write outside a buffer is undefined in
  C and is `none` here;
* `uint16_t` arithmetic is arithmetic on `Nat` reduced modulo `65536`;
* the constants of `data.hpp`, which is not part of the sources, are the fields of
  `Config`.
-/

namespace Mesh

/-! ## Constants and the frame type -/

/-- The compile-time constants that `main.cpp` takes from `data.hpp`. -/
structure Config where
  START_SIGN : Nat
  END_SIGN : Nat
  TEMPERATURE_TYPE : Nat
  HUMIDITY_TYPE : Nat
  DATA_SIZE : Nat
  NODE_ID_SIZE : Nat
  CHECKSUM_SIZE : Nat
  CHECKSUM_MOD : Nat
  MESSAGE_SIZE : Nat
  deriving DecidableEq, Repr

/-- Modelled from the spec: the union `data` of `data.hpp` is missing from the sources;
the spec calls the temperature reading, the humidity reading and the target value
"mutually exclusive storage", so the three members are views of one array of
`DATA_SIZE + 1` bytes. -/
structure data where
  bytes : List Nat
  deriving DecidableEq, Repr

/-- Member `temperature` of the union. -/
def data.temperature (m : data) : List Nat := m.bytes

/-- Member `humidity` of the union. -/
def data.humidity (m : data) : List Nat := m.bytes

/-- Member `target` of the union. -/
def data.target (m : data) : List Nat := m.bytes

/-- Modelled from the spec: the struct `data_frame` of `data.hpp` is missing from the
sources; it has the tag `data_type`, the union `measurement`, `node_id` of
`NODE_ID_SIZE + 1` bytes and `checksum` of `CHECKSUM_SIZE + 1` bytes. -/
structure data_frame where
  data_type : Nat
  measurement : data
  node_id : List Nat
  checksum : List Nat
  deriving DecidableEq, Repr

/-- Width of `uint16_t`. -/
def U16 : Nat := 65536

/-- Largest `unsigned long` of the 32-bit target. -/
def ULONG_MAX : Nat := 4294967295

/-- The requirements on the constants of `data.hpp` under which `get_message` stays
inside its buffers: the start sentinel is a character other than NUL (`strcat` appends
after it), the checksum field holds the two digits that `"%02x"` always writes and
every value below `CHECKSUM_MOD`, and the message is the two header bytes, the three
fields, the end sentinel and the terminator. -/
structure Config.wf (c : Config) : Prop where
  start_ne : c.START_SIGN ≠ 0
  checksum_size : 2 ≤ c.CHECKSUM_SIZE
  mod_pos : 0 < c.CHECKSUM_MOD
  mod_le : c.CHECKSUM_MOD ≤ 16 ^ c.CHECKSUM_SIZE
  message_size : c.MESSAGE_SIZE = c.DATA_SIZE + c.NODE_ID_SIZE + c.CHECKSUM_SIZE + 4

/-! ## C library functions used by `main.cpp` -/

/-- The text of a C string stored in `buf`: the bytes before the first NUL.
`none` when `buf` holds no NUL, as the read would leave the buffer. -/
def cstr : List Nat → Option (List Nat)
  | [] => none
  | b :: bs => if b = 0 then some [] else (cstr bs).map (fun t => b :: t)

/-- Copy `bytes` into `buf` from index `i` on; `none` when they do not fit. -/
def write (buf : List Nat) (i : Nat) (bytes : List Nat) : Option (List Nat) :=
  if i + bytes.length ≤ buf.length then
    some (buf.take i ++ bytes ++ buf.drop (i + bytes.length))
  else none

/-- The assignment `buf[i] = v`. -/
def store (buf : List Nat) (i v : Nat) : Option (List Nat) :=
  write buf i [v]

/-- C `strcat(dst, src)`: the text of `src` and a terminator are written over the
terminator of `dst`. -/
def strcat (dst src : List Nat) : Option (List Nat) :=
  match cstr dst, cstr src with
  | some d, some s => write dst d.length (s ++ [0])
  | _, _ => none

/-- The `n` bytes of `buf` from index `i` on (the source of a `memcpy`); `none` when
the range leaves the buffer. -/
def slice (buf : List Nat) (i n : Nat) : Option (List Nat) :=
  if i + n ≤ buf.length then some ((buf.drop i).take n) else none

/-- The lowercase hexadecimal digit character of `d < 16`. -/
def hexDigit (d : Nat) : Nat := if d < 10 then 48 + d else 87 + d

/-- The hexadecimal digits of `n`, most significant first, at most `fuel` of them. -/
def toHex : Nat → Nat → List Nat
  | 0, _ => []
  | fuel + 1, n =>
    if n < 16 then [hexDigit n] else toHex fuel (n / 16) ++ [hexDigit (n % 16)]

/-- The characters that `printf` writes for `"%02x"` and a `uint16_t` argument:
at most four digits, padded with `'0'` to at least two. -/
def fmt_02x (v : Nat) : List Nat :=
  let ds := toHex 4 (v % U16)
  List.replicate (2 - ds.length) 48 ++ ds

/-- The call `sprintf(buf, "%02x", v)`: digits and a terminator from index 0 on. -/
def sprintf_02x (buf : List Nat) (v : Nat) : Option (List Nat) :=
  write buf 0 (fmt_02x v ++ [0])

/-- C `isspace` in the "C" locale. -/
def isspace (ch : Nat) : Bool := ch == 32 || (9 ≤ ch && ch ≤ 13)

/-- Value of a hexadecimal digit character, either case. -/
def hexval (ch : Nat) : Option Nat :=
  if 48 ≤ ch ∧ ch ≤ 57 then some (ch - 48)
  else if 97 ≤ ch ∧ ch ≤ 102 then some (ch - 87)
  else if 65 ≤ ch ∧ ch ≤ 70 then some (ch - 55)
  else none

/-- The digit loop of `strtoul`: stops at the first character that is no digit. -/
def parseDigits : List Nat → Nat → Nat
  | [], acc => acc
  | ch :: s, acc =>
    match hexval ch with
    | some d => parseDigits s (acc * 16 + d)
    | none => acc

/-- The optional sign that `strtoul` accepts. -/
def skip_sign : List Nat → Bool × List Nat
  | 45 :: s => (true, s)
  | 43 :: s => (false, s)
  | s => (false, s)

/-- The optional `0x` or `0X` that `strtoul` accepts in base 16. -/
def skip_0x : List Nat → List Nat
  | 48 :: x :: s => if x = 120 ∨ x = 88 then s else 48 :: x :: s
  | s => s

/-- C `strtoul(s, nullptr, 16)` with a 32-bit `unsigned long`: white space, sign,
prefix, digits; `ULONG_MAX` on overflow, the negated value after a minus sign. -/
def strtoul_16 (s : List Nat) : Nat :=
  let p := skip_sign (s.dropWhile isspace)
  let v := parseDigits (skip_0x p.2) 0
  if ULONG_MAX < v then ULONG_MAX
  else if p.1 then (ULONG_MAX + 1 - v) % (ULONG_MAX + 1)
  else v

/-- The text that a buffer holds as a C string: the bytes before its first NUL (all of
them when there is none). -/
def text (buf : List Nat) : List Nat := buf.takeWhile (fun b => b ≠ 0)

/-- C `strcmp`: the difference of the first two bytes that differ, `0` when the texts
are equal; the end of a buffer reads as a terminator. -/
def strcmp : List Nat → List Nat → Int
  | [], [] => 0
  | [], b :: _ => -(b : Int)
  | a :: _, [] => (a : Int)
  | a :: as, b :: bs =>
    if a = b then (if a = 0 then 0 else strcmp as bs) else (a : Int) - (b : Int)

/-! ## `checksum` -/

/-- One loop `for (i = 0; i < n; i++) checksum += buf[i];` on the `uint16_t`
accumulator. -/
def sum_loop (n : Nat) (buf : List Nat) (acc : Nat) : Nat :=
  (List.range n).foldl (fun a i => (a + buf.getD i 0) % U16) acc

/-- The function `checksum` of `main.cpp`. The second `if` is not chained to the first
by an `else`, so its `else` branch also runs for a temperature frame. The last
reduction is the conversion of the result to the return type `uint16_t`. -/
def checksum (c : Config) (frame : data_frame) : Nat :=
  let checksum := 0
  let checksum := (checksum + c.START_SIGN) % U16
  let checksum := (checksum + frame.data_type) % U16
  let checksum :=
    if frame.data_type = c.TEMPERATURE_TYPE then
      sum_loop c.DATA_SIZE frame.measurement.temperature checksum
    else checksum
  let checksum :=
    if frame.data_type = c.HUMIDITY_TYPE then
      sum_loop c.DATA_SIZE frame.measurement.humidity checksum
    else
      sum_loop c.DATA_SIZE frame.measurement.target checksum
  let checksum := sum_loop c.NODE_ID_SIZE frame.node_id checksum
  checksum % c.CHECKSUM_MOD % U16

/-! ## `get_message` -/

/-- The function `get_message` of `main.cpp`: the message buffer and the frame after
the call. -/
def get_message (c : Config) (msg : List Nat) (frame : data_frame) :
    Option (List Nat × data_frame) := do
  let msg ← store msg 0 c.START_SIGN
  let msg ← store msg 1 frame.data_type
  let msg ← store msg 2 0
  let msg ←
    if frame.data_type = c.TEMPERATURE_TYPE then
      strcat msg frame.measurement.temperature
    else
      strcat msg frame.measurement.humidity
  let msg ← strcat msg frame.node_id
  let cs ← sprintf_02x frame.checksum (checksum c frame)
  let frame := { frame with checksum := cs }
  let msg ← strcat msg frame.checksum
  let msg ← store msg (c.MESSAGE_SIZE - 2) c.END_SIGN
  let msg ← store msg (c.MESSAGE_SIZE - 1) 0
  pure (msg, frame)

/-! ## `decode_msg` and `validate` -/

/-- The scan `while (start < MESSAGE_SIZE) { if (msg[start] == START_SIGN) break;
start++; }`; `fuel` is `MESSAGE_SIZE - start`. -/
def find_start (c : Config) (msg : List Nat) : Nat → Nat → Option Nat
  | 0, start => some start
  | fuel + 1, start =>
    match msg[start]? with
    | none => none
    | some b => if b = c.START_SIGN then some start else find_start c msg fuel (start + 1)

/-- The function `decode_msg` of `main.cpp`. Each `memcpy` of `n` bytes into an array
of `n + 1` bytes is followed by the store of the terminator at index `n`, so the two
together define the whole array. -/
def decode_msg (c : Config) (msg : List Nat) (frame : data_frame) : Option data_frame := do
  let start ← find_start c msg c.MESSAGE_SIZE 0
  let data_type ← msg[start + 1]?
  let frame := { frame with data_type := data_type }
  let frame ←
    if frame.data_type = c.TEMPERATURE_TYPE then do
      let temperature ← slice msg (start + 2) c.DATA_SIZE
      pure { frame with measurement := ⟨temperature ++ [0]⟩ }
    else pure frame
  let frame ←
    if frame.data_type = c.HUMIDITY_TYPE then do
      let humidity ← slice msg (start + 2) c.DATA_SIZE
      pure { frame with measurement := ⟨humidity ++ [0]⟩ }
    else do
      let target ← slice msg (start + 2) c.DATA_SIZE
      pure { frame with measurement := ⟨target ++ [0]⟩ }
  let node_id ← slice msg (start + 2 + c.DATA_SIZE) c.NODE_ID_SIZE
  let frame := { frame with node_id := node_id ++ [0] }
  let checksum ← slice msg (start + 2 + c.DATA_SIZE + c.NODE_ID_SIZE) c.CHECKSUM_SIZE
  pure { frame with checksum := checksum ++ [0] }

/-- The function `validate` of `main.cpp`. -/
def validate (c : Config) (frame : data_frame) : Bool :=
  let frame_checksum := strtoul_16 frame.checksum % U16
  frame_checksum == checksum c frame

/-! ## `received_callback` -/

/-- One call `mesh_receive_handlers[index](type, target)`. -/
structure HandlerCall (F : Type) where
  index : Int
  type : Nat
  target : F

/-- What `received_callback` takes from outside `main.cpp`: the handler lookup of
`handlers.hpp`, the C library `strtof` (values of type `F`), and the global
`chip_id`. -/
structure Env (F : Type) where
  get_handler_index : Nat → Int
  strtof : List Nat → F
  chip_id : List Nat

/-- The literal `"0000000000"` with its terminator. -/
def BROADCAST_ID : List Nat := [48, 48, 48, 48, 48, 48, 48, 48, 48, 48, 0]

/-- The function `received_callback` of `main.cpp`: the value returned to the mesh and
the handler calls made. `msg` is the buffer behind `msg.c_str()`, `frame` the content
of the local variable before `decode_msg` fills it. -/
def received_callback {F : Type} (c : Config) (env : Env F) (msg : List Nat)
    (frame : data_frame) : Option (Bool × List (HandlerCall F)) := do
  let frame ← decode_msg c msg frame
  if !validate c frame then
    pure (false, [])
  else
    let handler_index := env.get_handler_index frame.data_type
    if handler_index < 0 then
      pure (true, [])
    else if strcmp frame.node_id env.chip_id ≠ 0 ∧ strcmp frame.node_id BROADCAST_ID ≠ 0 then
      pure (true, [])
    else
      let target := env.strtof frame.measurement.target
      pure (true, [⟨handler_index, frame.data_type, target⟩])

/-! ## Example constants and frames -/

/-- An assignment of the constants: five measurement characters, ten identity
characters, two checksum digits, sum modulo 256, tags `'T'` and `'H'`. -/
def cfg : Config :=
  { START_SIGN := 36, END_SIGN := 35, TEMPERATURE_TYPE := 84, HUMIDITY_TYPE := 72,
    DATA_SIZE := 5, NODE_ID_SIZE := 10, CHECKSUM_SIZE := 2, CHECKSUM_MOD := 256,
    MESSAGE_SIZE := 21 }

/-- The text `"23.45"`. -/
def txt_2345 : List Nat := [50, 51, 46, 52, 53]

/-- The text `"AB12345678"`. -/
def txt_AB : List Nat := [65, 66, 49, 50, 51, 52, 53, 54, 55, 56]

/-- The frame `(Temperature, "23.45", "AB12345678")` with an empty checksum field. -/
def frame_T : data_frame :=
  { data_type := 84, measurement := ⟨txt_2345 ++ [0]⟩, node_id := txt_AB ++ [0],
    checksum := [0, 0, 0] }

/-! ## The properties as the specification words them -/

/-- The checksum formula of the specification: start sentinel, tag, the `DATA_SIZE`
measurement bytes counted once and the `NODE_ID_SIZE` identity bytes, modulo
`CHECKSUM_MOD`. -/
def checksum_formula (c : Config) (frame : data_frame) : Nat :=
  (c.START_SIGN + frame.data_type + (frame.measurement.bytes.take c.DATA_SIZE).sum
    + (frame.node_id.take c.NODE_ID_SIZE).sum) % c.CHECKSUM_MOD

/-- The number `v` as lowercase hexadecimal text of exactly `k` digits, padded with
`'0'` on the left. -/
def hex_fixed (k v : Nat) : List Nat :=
  (List.range k).reverse.map (fun i => hexDigit (v / 16 ^ i % 16))

/-- The wire layout of the specification, for the frame `frame` and the buffer `msg`:
start sentinel, tag, measurement, identity, checksum of `frame` as `CHECKSUM_SIZE`
hexadecimal digits, end sentinel at `MESSAGE_SIZE - 2` and NUL at `MESSAGE_SIZE - 1`. -/
def wire_layout (c : Config) (frame : data_frame) (msg : List Nat) : Prop :=
  msg[0]? = some c.START_SIGN
  ∧ msg[1]? = some frame.data_type
  ∧ slice msg 2 c.DATA_SIZE = some (frame.measurement.bytes.take c.DATA_SIZE)
  ∧ slice msg (2 + c.DATA_SIZE) c.NODE_ID_SIZE = some (frame.node_id.take c.NODE_ID_SIZE)
  ∧ slice msg (2 + c.DATA_SIZE + c.NODE_ID_SIZE) c.CHECKSUM_SIZE
      = some (hex_fixed c.CHECKSUM_SIZE (checksum c frame))
  ∧ msg[c.MESSAGE_SIZE - 2]? = some c.END_SIGN
  ∧ msg[c.MESSAGE_SIZE - 1]? = some 0

instance (c : Config) (frame : data_frame) (msg : List Nat) :
    Decidable (wire_layout c frame msg) := by
  unfold wire_layout
  infer_instance

/-- The frame with the NUL tag and the texts `"23.45"` and `"AB12345678"`. -/
def frame_nul : data_frame :=
  { data_type := 0, measurement := ⟨txt_2345 ++ [0]⟩, node_id := txt_AB ++ [0],
    checksum := [0, 0, 0] }

/-- The constants of `cfg` with a checksum of four digits modulo 65536. -/
def cfg4 : Config :=
  { START_SIGN := 36, END_SIGN := 35, TEMPERATURE_TYPE := 84, HUMIDITY_TYPE := 72,
    DATA_SIZE := 5, NODE_ID_SIZE := 10, CHECKSUM_SIZE := 4, CHECKSUM_MOD := 65536,
    MESSAGE_SIZE := 23 }

/-- The frame `(Temperature, "23.45", "AB12345678")` with a checksum array of five
bytes, as `cfg4` asks for. -/
def frame_T4 : data_frame :=
  { data_type := 84, measurement := ⟨txt_2345 ++ [0]⟩, node_id := txt_AB ++ [0],
    checksum := [0, 0, 0, 0, 0] }

/-- A temperature frame whose measurement text `"5.00"` has four characters. -/
def frame_short : data_frame :=
  { data_type := 84, measurement := ⟨[53, 46, 48, 48, 0, 0]⟩, node_id := txt_AB ++ [0],
    checksum := [0, 0, 0] }

/-- The text `"1234567890"`. -/
def txt_digits : List Nat := [49, 50, 51, 52, 53, 54, 55, 56, 57, 48]

/-- A node: identity `"AB12345678"`, handler 0 registered for the temperature tag and
none for any other tag; the value of `strtof` is stood for by the text it parses. -/
def env_AB : Env (List Nat) :=
  { get_handler_index := fun t => if t = 84 then 0 else -1,
    strtof := fun s => text s,
    chip_id := txt_AB ++ [0] }

/-- The same node with the identity `"1234567890"`. -/
def env_digits : Env (List Nat) :=
  { get_handler_index := fun t => if t = 84 then 0 else -1,
    strtof := fun s => text s,
    chip_id := txt_digits ++ [0] }

/-- The message of `(Temperature, "23.45", "AB12345678")`, checksum digits `97`. -/
def msg_AB : List Nat :=
  [36, 84, 50, 51, 46, 52, 53, 65, 66, 49, 50, 51, 52, 53, 54, 55, 56, 57, 55, 35, 0]

/-- The message of `(Temperature, "23.45", "0000000000")`, checksum digits `50`. -/
def msg_broadcast : List Nat :=
  [36, 84, 50, 51, 46, 52, 53, 48, 48, 48, 48, 48, 48, 48, 48, 48, 48, 53, 48, 35, 0]

/-- The message `msg_AB` with the checksum digits replaced by `00`. -/
def msg_corrupt : List Nat :=
  [36, 84, 50, 51, 46, 52, 53, 65, 66, 49, 50, 51, 52, 53, 54, 55, 56, 48, 48, 35, 0]

/-- A message without any start sentinel: 22 characters `'x'`, then the tag, the texts
and the checksum digits of `(Temperature, "23.45", "AB12345678")`, the end sentinel
and the terminator. -/
def msg_unframed : List Nat :=
  List.replicate 22 120
    ++ [84, 50, 51, 46, 52, 53, 65, 66, 49, 50, 51, 52, 53, 54, 55, 56, 57, 55, 35, 0]

/-- A node with the identity `"AB12345678"` and no handler for any tag. -/
def env_none : Env (List Nat) :=
  { get_handler_index := fun _ => -1,
    strtof := fun s => text s,
    chip_id := txt_AB ++ [0] }

/-- The checksum formula with the measurement bytes counted twice. -/
def checksum_formula_twice (c : Config) (frame : data_frame) : Nat :=
  (c.START_SIGN + frame.data_type + 2 * (frame.measurement.bytes.take c.DATA_SIZE).sum
    + (frame.node_id.take c.NODE_ID_SIZE).sum) % c.CHECKSUM_MOD

/-- The loop `for (i = 0; i < n; i++) checksum += buf[i];` on an accumulator that is an
exact integer. -/
def sum_exact (n : Nat) (buf : List Nat) (acc : Nat) : Nat :=
  (List.range n).foldl (fun a i => a + buf.getD i 0) acc

/-- The accumulator of `checksum` before the final reduction, computed with exact
integers: the additions in the order of the code, none of them reduced. -/
def checksum_exact (c : Config) (frame : data_frame) : Nat :=
  let checksum := 0
  let checksum := checksum + c.START_SIGN
  let checksum := checksum + frame.data_type
  let checksum :=
    if frame.data_type = c.TEMPERATURE_TYPE then
      sum_exact c.DATA_SIZE frame.measurement.temperature checksum
    else checksum
  let checksum :=
    if frame.data_type = c.HUMIDITY_TYPE then
      sum_exact c.DATA_SIZE frame.measurement.humidity checksum
    else
      sum_exact c.DATA_SIZE frame.measurement.target checksum
  sum_exact c.NODE_ID_SIZE frame.node_id checksum

/-- The frame `(Temperature, "23.45", "AB12345678")` with its checksum digits `97`. -/
def frame_valid : data_frame :=
  { data_type := 84, measurement := ⟨txt_2345 ++ [0]⟩, node_id := txt_AB ++ [0],
    checksum := [57, 55, 0] }

/-- The frame `frame_valid` with the first two characters of the identity swapped:
`"BA12345678"`. -/
def frame_swapped : data_frame :=
  { data_type := 84, measurement := ⟨txt_2345 ++ [0]⟩,
    node_id := [66, 65, 49, 50, 51, 52, 53, 54, 55, 56, 0], checksum := [57, 55, 0] }

/-- The frame `frame_valid` with the first measurement byte `'2'` (50) replaced by the
byte 178. -/
def frame_tampered : data_frame :=
  { data_type := 84, measurement := ⟨[178, 51, 46, 52, 53, 0]⟩, node_id := txt_AB ++ [0],
    checksum := [57, 55, 0] }

/-- Constants whose start sentinel and temperature tag are the byte 255. -/
def cfg_max : Config :=
  { START_SIGN := 255, END_SIGN := 35, TEMPERATURE_TYPE := 255, HUMIDITY_TYPE := 72,
    DATA_SIZE := 5, NODE_ID_SIZE := 10, CHECKSUM_SIZE := 2, CHECKSUM_MOD := 256,
    MESSAGE_SIZE := 21 }

/-- A temperature frame for `cfg_max` with every measurement and identity byte 255. -/
def frame_max : data_frame :=
  { data_type := 255, measurement := ⟨List.replicate 5 255 ++ [0]⟩,
    node_id := List.replicate 10 255 ++ [0], checksum := [0, 0, 0] }

/-! ## `setup`, `build_data_frame` and `loop` -/

/-- The decimal digits of `n`, most significant first, at most `fuel` of them. -/
def toDec : Nat → Nat → List Nat
  | 0, _ => []
  | fuel + 1, n =>
    if n < 10 then [48 + n] else toDec fuel (n / 10) ++ [48 + n % 10]

/-- The characters that `printf` writes for `"%u"` and a `uint32_t` argument: at most
ten digits. -/
def fmt_u (v : Nat) : List Nat := toDec 10 (v % 4294967296)

/-- The call `sprintf(buf, "%u", v)`. -/
def sprintf_u (buf : List Nat) (v : Nat) : Option (List Nat) :=
  write buf 0 (fmt_u v ++ [0])

/-- The part of `setup` that computes the global `chip_id` from the value `id` of
`ESP.getChipId()`; `chip_id` is the array of `NODE_ID_SIZE + 1` bytes before the call.
An index below 0 is outside the array. -/
def setup (c : Config) (chip_id : List Nat) (id : Nat) : Option (List Nat) := do
  let chip_id ← sprintf_u chip_id id
  let first ← chip_id[0]?
  let chip_id ← if 2 ≤ c.NODE_ID_SIZE then store chip_id (c.NODE_ID_SIZE - 2) first else none
  let third ← if 3 ≤ c.NODE_ID_SIZE then chip_id[c.NODE_ID_SIZE - 3]? else none
  let chip_id ← store chip_id (c.NODE_ID_SIZE - 1) third
  store chip_id c.NODE_ID_SIZE 0

/-- The function `build_data_frame` of `main.cpp`. Floating point is not modelled:
`val_text` stands for the characters that `"%.2f"` writes for `val`. -/
def build_data_frame (c : Config) (chip_id : List Nat) (frame : data_frame)
    (is_temp : Bool) (val_text : List Nat) : Option data_frame := do
  let frame ←
    if is_temp then do
      let temperature ← write frame.measurement.temperature 0 (val_text ++ [0])
      pure { frame with data_type := c.TEMPERATURE_TYPE, measurement := ⟨temperature⟩ }
    else do
      let humidity ← write frame.measurement.humidity 0 (val_text ++ [0])
      pure { frame with data_type := c.HUMIDITY_TYPE, measurement := ⟨humidity⟩ }
  let bytes ← slice chip_id 0 (c.NODE_ID_SIZE + 1)
  let node_id ← write frame.node_id 0 bytes
  pure { frame with node_id := node_id }

/-- The text `"10.00"`, which `"%.2f"` writes for the value 10. -/
def txt_1000 : List Nat := [49, 48, 46, 48, 48]

/-- A local frame before it is filled: arrays of the sizes that `cfg` asks for. -/
def frame_blank : data_frame :=
  { data_type := 0, measurement := ⟨List.replicate 6 0⟩, node_id := List.replicate 11 0,
    checksum := List.replicate 3 0 }

/-- The global variables of `main.cpp` that `loop` reads or writes. -/
structure Globals where
  chip_id : List Nat
  start_test : Bool
  message_counter : Nat
  previous_millis : Nat
  interval_millis : Nat
  deriving DecidableEq, Repr

/-- Width of `uint32_t`. -/
def U32 : Nat := 4294967296

/-- The difference `current_millis - previous_millis` of two `uint32_t` values. -/
def elapsed (current_millis previous_millis : Nat) : Nat :=
  (current_millis % U32 + U32 - previous_millis % U32) % U32

/-- The text that `loop` hands to `mesh.broadcast`: the frame of the value 10 is built
in the local `frame`, written into the zeroed array `message`, and `String(message)`
takes the characters before the first NUL. `TEMPERATURE` is the constant of `data.hpp`
that `loop` passes for `is_temp`. -/
def loop_message (c : Config) (TEMPERATURE : Bool) (chip_id : List Nat)
    (frame : data_frame) : Option (List Nat) := do
  let message := List.replicate c.MESSAGE_SIZE 0
  let frame ← build_data_frame c chip_id frame TEMPERATURE txt_1000
  let r ← get_message c message frame
  cstr r.1

/-- One call of `loop` of `main.cpp` when `millis()` returns `now`: the globals after
the call and the text broadcast, if any. The call `floodingMeshDelay(1)` hands control
to the mesh and is left out: no other code writes the globals here. -/
def loop (c : Config) (TEMPERATURE : Bool) (frame : data_frame) (g : Globals) (now : Nat) :
    Option (Globals × Option (List Nat)) :=
  let current_millis := now % U32
  if g.start_test ∧ elapsed current_millis g.previous_millis ≥ g.interval_millis then do
    let g := { g with previous_millis := current_millis }
    let message ← loop_message c TEMPERATURE g.chip_id frame
    let g := { g with message_counter := (g.message_counter + 1) % U16 }
    let g := if g.message_counter = 2000 then { g with start_test := false } else g
    pure (g, some message)
  else
    pure (g, none)

/-- Successive calls of `loop`, one for each value of `millis()` in the list: the
globals at the end and the texts broadcast, in order. -/
def run (c : Config) (TEMPERATURE : Bool) (frame : data_frame) :
    Globals → List Nat → Option (Globals × List (List Nat))
  | g, [] => some (g, [])
  | g, now :: rest =>
    match loop c TEMPERATURE frame g now with
    | none => none
    | some (g1, out) =>
      match run c TEMPERATURE frame g1 rest with
      | none => none
      | some (g2, outs) => some (g2, out.toList ++ outs)

/-- The number of steps at which at least `interval` has elapsed since the previous
send, when every such step sends and nothing bounds the number of sends. -/
def due_steps (interval : Nat) : Nat → List Nat → Nat
  | _, [] => 0
  | previous, now :: rest =>
    if elapsed (now % U32) previous ≥ interval then 1 + due_steps interval (now % U32) rest
    else due_steps interval previous rest

/-- The globals of a node `"AB12345678"` at the start of a test run: `start_test` set,
no message sent, interval 100. -/
def globals_start : Globals :=
  { chip_id := txt_AB ++ [0], start_test := true, message_counter := 0,
    previous_millis := 0, interval_millis := 100 }

end Mesh

/-! ## Facts about the C library model -/

namespace Mesh

theorem cstr_text (p r : List Nat) (hp : ∀ b ∈ p, b ≠ 0) : cstr (p ++ 0 :: r) = some p := by
  induction p with
  | nil => simp [cstr]
  | cons a p ih =>
    have ha : a ≠ 0 := hp a (List.mem_cons_self a p)
    have ih2 := ih (fun b hb => hp b (List.mem_cons_of_mem a hb))
    simp [cstr, ha, ih2]

theorem strcat_text (p r s t : List Nat) (hp : ∀ b ∈ p, b ≠ 0) (hs : ∀ b ∈ s, b ≠ 0)
    (hfit : s.length ≤ r.length) :
    strcat (p ++ 0 :: r) (s ++ 0 :: t) = some (p ++ s ++ 0 :: r.drop s.length) := by
  unfold strcat
  rw [cstr_text p r hp, cstr_text s t hs]
  simp only [write]
  have h1 : p.length + (s ++ [0]).length ≤ (p ++ 0 :: r).length := by
    simp only [List.length_append, List.length_cons, List.length_nil]; omega
  rw [if_pos h1]
  have h2 : (s ++ [0]).length = s.length + 1 := by simp
  rw [h2, List.take_left, List.drop_append, List.drop_succ_cons]
  simp

theorem store_lt (buf : List Nat) (i v : Nat) (h : i < buf.length) :
    store buf i v = some (buf.set i v) := by
  unfold store write
  have h1 : i + [v].length ≤ buf.length := by simp; omega
  rw [if_pos h1]
  congr 1
  rw [List.set_eq_take_append_cons_drop, if_pos h]
  simp

/-! ### Hexadecimal text -/

theorem hexval_hexDigit (d : Nat) (h : d < 16) : hexval (hexDigit d) = some d := by
  unfold hexval hexDigit
  by_cases h10 : d < 10
  · rw [if_pos h10, if_pos (by omega)]; congr 1; omega
  · rw [if_neg h10, if_neg (by omega), if_pos (by omega)]; congr 1; omega

theorem hexDigit_range (d : Nat) (h : d < 16) :
    (48 ≤ hexDigit d ∧ hexDigit d ≤ 57) ∨ (97 ≤ hexDigit d ∧ hexDigit d ≤ 102) := by
  unfold hexDigit
  by_cases h10 : d < 10
  · rw [if_pos h10]; omega
  · rw [if_neg h10]; omega

theorem toHex_range (fuel n : Nat) :
    ∀ b ∈ toHex fuel n, (48 ≤ b ∧ b ≤ 57) ∨ (97 ≤ b ∧ b ≤ 102) := by
  induction fuel generalizing n with
  | zero => intro b hb; simp [toHex] at hb
  | succ f ih =>
    intro b hb
    unfold toHex at hb
    by_cases h : n < 16
    · rw [if_pos h] at hb
      rw [List.mem_singleton] at hb
      rw [hb]; exact hexDigit_range n h
    · rw [if_neg h] at hb
      rcases List.mem_append.mp hb with hb | hb
      · exact ih _ b hb
      · rw [List.mem_singleton] at hb
        rw [hb]; exact hexDigit_range _ (Nat.mod_lt _ (by omega))

theorem toHex_length_pos (fuel n : Nat) : 1 ≤ (toHex (fuel + 1) n).length := by
  unfold toHex
  by_cases h : n < 16
  · rw [if_pos h]; simp
  · rw [if_neg h]; simp

theorem toHex_length_le (fuel k n : Nat) (hk : 1 ≤ k) (hn : n < 16 ^ k) :
    (toHex fuel n).length ≤ k := by
  induction fuel generalizing n k with
  | zero => simp [toHex]
  | succ f ih =>
    unfold toHex
    by_cases h : n < 16
    · rw [if_pos h]; simpa using hk
    · rw [if_neg h]
      have hk2 : 2 ≤ k := by
        by_contra hc
        have : k = 1 := by omega
        subst this
        omega
      have hdiv : n / 16 < 16 ^ (k - 1) := by
        apply Nat.div_lt_of_lt_mul
        have : 16 * 16 ^ (k - 1) = 16 ^ k := by
          rw [← pow_succ']; congr 1; omega
        omega
      have := ih (k - 1) (n / 16) (by omega) hdiv
      simp only [List.length_append, List.length_cons, List.length_nil]
      omega

theorem parseDigits_toHex (fuel n acc : Nat) (t : List Nat) (hn : n < 16 ^ fuel) :
    parseDigits (toHex fuel n ++ t) acc
      = parseDigits t (acc * 16 ^ (toHex fuel n).length + n) := by
  induction fuel generalizing n acc t with
  | zero =>
    have : n = 0 := by simpa using hn
    subst this
    simp [toHex]
  | succ f ih =>
    unfold toHex
    by_cases h : n < 16
    · rw [if_pos h]
      simp [parseDigits, hexval_hexDigit n h]
    · rw [if_neg h]
      have hdiv : n / 16 < 16 ^ f := by
        apply Nat.div_lt_of_lt_mul
        rw [← pow_succ']; exact hn
      rw [List.append_assoc, ih (n / 16) acc _ hdiv]
      simp only [List.singleton_append, parseDigits,
        hexval_hexDigit (n % 16) (Nat.mod_lt _ (by omega)), List.length_append,
        List.length_cons, List.length_nil]
      congr 1
      rw [pow_succ]
      have := Nat.div_add_mod n 16
      ring_nf
      omega

theorem parseDigits_zeros (k acc : Nat) (t : List Nat) (hacc : acc = 0) :
    parseDigits (List.replicate k 48 ++ t) acc = parseDigits t 0 := by
  subst hacc
  induction k with
  | zero => simp
  | succ k ih =>
    rw [List.replicate_succ, List.cons_append, parseDigits]
    have : hexval 48 = some 0 := by decide
    rw [this]
    exact ih

theorem skip_sign_hex (a : Nat) (s : List Nat)
    (ha : (48 ≤ a ∧ a ≤ 57) ∨ (97 ≤ a ∧ a ≤ 102)) : skip_sign (a :: s) = (false, a :: s) := by
  unfold skip_sign
  split
  · rename_i h; injection h with h1 _; omega
  · rename_i h; injection h with h1 _; omega
  · rfl

theorem skip_0x_hex (a b : Nat) (s : List Nat)
    (hb : (48 ≤ b ∧ b ≤ 57) ∨ (97 ≤ b ∧ b ≤ 102)) : skip_0x (a :: b :: s) = a :: b :: s := by
  unfold skip_0x
  split
  · rename_i x t h
    injection h with h1 h2
    injection h2 with h3 h4
    subst h3
    rw [if_neg (by omega)]
    rw [h1, h4]
  · rfl

theorem dropWhile_isspace_hex (a : Nat) (s : List Nat)
    (ha : (48 ≤ a ∧ a ≤ 57) ∨ (97 ≤ a ∧ a ≤ 102)) :
    (a :: s).dropWhile isspace = a :: s := by
  have h : isspace a = false := by
    unfold isspace
    simp only [Bool.or_eq_false_iff, beq_eq_false_iff_ne, ne_eq, Bool.and_eq_false_iff,
      decide_eq_false_iff_not, not_le]
    omega
  simp [List.dropWhile, h]

theorem fmt_02x_range (v : Nat) :
    ∀ b ∈ fmt_02x v, (48 ≤ b ∧ b ≤ 57) ∨ (97 ≤ b ∧ b ≤ 102) := by
  intro b hb
  unfold fmt_02x at hb
  rcases List.mem_append.mp hb with hb | hb
  · have := List.eq_of_mem_replicate hb
    omega
  · exact toHex_range _ _ b hb

theorem fmt_02x_ne_zero (v : Nat) : ∀ b ∈ fmt_02x v, b ≠ 0 := by
  intro b hb
  have := fmt_02x_range v b hb
  omega

theorem fmt_02x_length_ge (v : Nat) : 2 ≤ (fmt_02x v).length := by
  unfold fmt_02x
  simp only [List.length_append, List.length_replicate]
  omega

theorem fmt_02x_length_le (v k : Nat) (hk : 2 ≤ k) (hv : v % U16 < 16 ^ k) :
    (fmt_02x v).length ≤ k := by
  unfold fmt_02x
  have := toHex_length_le 4 k (v % U16) (by omega) hv
  simp only [List.length_append, List.length_replicate]
  omega

theorem parseDigits_nul (r : List Nat) (acc : Nat) : parseDigits (0 :: r) acc = acc := by
  have : hexval 0 = none := by decide
  simp [parseDigits, this]

theorem parseDigits_fmt_02x (v : Nat) (r : List Nat) :
    parseDigits (fmt_02x v ++ 0 :: r) 0 = v % U16 := by
  unfold fmt_02x
  have hlt : v % U16 < 16 ^ 4 := Nat.mod_lt _ (by decide)
  rw [List.append_assoc, parseDigits_zeros _ _ _ rfl, parseDigits_toHex 4 _ 0 _ hlt,
    parseDigits_nul]
  simp

theorem strtoul_16_fmt_02x (v : Nat) (r : List Nat) :
    strtoul_16 (fmt_02x v ++ 0 :: r) = v % U16 := by
  have hlen := fmt_02x_length_ge v
  have hrange := fmt_02x_range v
  have hparse := parseDigits_fmt_02x v r
  generalize fmt_02x v = ds at hlen hrange hparse
  match ds, hlen with
  | a :: b :: s, _ =>
    have ha := hrange a (by simp)
    have hb := hrange b (by simp)
    unfold strtoul_16
    simp only [List.cons_append] at hparse ⊢
    rw [dropWhile_isspace_hex a _ ha, skip_sign_hex a _ ha]
    simp only [skip_0x_hex a b _ hb, hparse]
    have h2 : ¬ (ULONG_MAX < v % U16) := by
      simp only [ULONG_MAX, U16]; omega
    rw [if_neg h2]
    simp

/-! ## What `get_message` writes -/

theorem checksum_field_irrelevant (c : Config) (frame : data_frame) (ck : List Nat) :
    checksum c { frame with checksum := ck } = checksum c frame := rfl

theorem get_message_eq (c : Config) (a b d dt : Nat) (rest m mt id it ck : List Nat)
    (hS : c.START_SIGN ≠ 0) (hdt : dt ≠ 0)
    (hm : ∀ x ∈ m, x ≠ 0) (hid : ∀ x ∈ id, x ≠ 0)
    (hck : (fmt_02x (checksum c ⟨dt, ⟨m ++ 0 :: mt⟩, id ++ 0 :: it, ck⟩)).length + 1
      ≤ ck.length)
    (hfit : m.length + id.length
      + (fmt_02x (checksum c ⟨dt, ⟨m ++ 0 :: mt⟩, id ++ 0 :: it, ck⟩)).length ≤ rest.length) :
    get_message c (a :: b :: d :: rest) ⟨dt, ⟨m ++ 0 :: mt⟩, id ++ 0 :: it, ck⟩
      = (store ([c.START_SIGN, dt] ++ m ++ id
            ++ fmt_02x (checksum c ⟨dt, ⟨m ++ 0 :: mt⟩, id ++ 0 :: it, ck⟩)
            ++ 0 :: rest.drop (m.length + id.length
              + (fmt_02x (checksum c ⟨dt, ⟨m ++ 0 :: mt⟩, id ++ 0 :: it, ck⟩)).length))
          (c.MESSAGE_SIZE - 2) c.END_SIGN).bind
        (fun y => (store y (c.MESSAGE_SIZE - 1) 0).map
          (fun z => (z, ⟨dt, ⟨m ++ 0 :: mt⟩, id ++ 0 :: it,
            fmt_02x (checksum c ⟨dt, ⟨m ++ 0 :: mt⟩, id ++ 0 :: it, ck⟩)
              ++ 0 :: ck.drop
                ((fmt_02x (checksum c ⟨dt, ⟨m ++ 0 :: mt⟩, id ++ 0 :: it, ck⟩)).length
                  + 1)⟩))) := by
  generalize hv : checksum c ⟨dt, ⟨m ++ 0 :: mt⟩, id ++ 0 :: it, ck⟩ = v at hck hfit ⊢
  have hx0 := fmt_02x_ne_zero v
  generalize hxe : fmt_02x v = hx at hck hfit hx0 ⊢
  have e1 : store (a :: b :: d :: rest) 0 c.START_SIGN = some (c.START_SIGN :: b :: d :: rest) := by
    rw [store_lt _ _ _ (by simp)]; rfl
  have e2 : store (c.START_SIGN :: b :: d :: rest) 1 dt = some (c.START_SIGN :: dt :: d :: rest) := by
    rw [store_lt _ _ _ (by simp)]; rfl
  have e3 : store (c.START_SIGN :: dt :: d :: rest) 2 0
      = some ([c.START_SIGN, dt] ++ 0 :: rest) := by
    rw [store_lt _ _ _ (by simp)]; rfl
  have hp0 : ∀ x ∈ [c.START_SIGN, dt], x ≠ 0 := by
    intro x hx; simp at hx; rcases hx with h | h <;> subst h <;> assumption
  have e4 : strcat ([c.START_SIGN, dt] ++ 0 :: rest) (m ++ 0 :: mt)
      = some ([c.START_SIGN, dt] ++ m ++ 0 :: rest.drop m.length) :=
    strcat_text _ _ _ _ hp0 hm (by omega)
  have hp1 : ∀ x ∈ [c.START_SIGN, dt] ++ m, x ≠ 0 := by
    intro x hx
    rcases List.mem_append.mp hx with h | h
    · exact hp0 x h
    · exact hm x h
  have e5 : strcat ([c.START_SIGN, dt] ++ m ++ 0 :: rest.drop m.length) (id ++ 0 :: it)
      = some ([c.START_SIGN, dt] ++ m ++ id ++ 0 :: rest.drop (m.length + id.length)) := by
    rw [strcat_text _ _ _ _ hp1 hid (by rw [List.length_drop]; omega), List.drop_drop]
  have hp2 : ∀ x ∈ [c.START_SIGN, dt] ++ m ++ id, x ≠ 0 := by
    intro x hx
    rcases List.mem_append.mp hx with h | h
    · exact hp1 x h
    · exact hid x h
  have e6 : sprintf_02x ck v = some (hx ++ 0 :: ck.drop (hx.length + 1)) := by
    unfold sprintf_02x write
    rw [hxe, if_pos (by simp; omega)]
    simp
  have e7 : strcat ([c.START_SIGN, dt] ++ m ++ id ++ 0 :: rest.drop (m.length + id.length))
      (hx ++ 0 :: ck.drop (hx.length + 1))
      = some ([c.START_SIGN, dt] ++ m ++ id ++ hx
          ++ 0 :: rest.drop (m.length + id.length + hx.length)) := by
    rw [strcat_text _ _ _ _ hp2 hx0 (by rw [List.length_drop]; omega), List.drop_drop]
  unfold get_message
  simp only [data.temperature, data.humidity, ite_self, e1, e2, e3, hv, Option.bind_eq_bind,
    Option.some_bind, e4, e5, e6, e7]
  cases store ([c.START_SIGN, dt] ++ m ++ id ++ hx
      ++ 0 :: List.drop (m.length + id.length + hx.length) rest) (c.MESSAGE_SIZE - 2) c.END_SIGN with
  | none => rfl
  | some y =>
    simp only [Option.some_bind]
    cases store y (c.MESSAGE_SIZE - 1) 0 <;> rfl

theorem checksum_lt (c : Config) (hc : c.wf) (frame : data_frame) :
    checksum c frame < 16 ^ c.CHECKSUM_SIZE := by
  unfold checksum
  have h1 := hc.mod_pos
  have h2 := hc.mod_le
  exact lt_of_le_of_lt (Nat.mod_le _ _) (lt_of_lt_of_le (Nat.mod_lt _ h1) h2)

theorem fmt_checksum_length_le (c : Config) (hc : c.wf) (frame : data_frame) :
    (fmt_02x (checksum c frame)).length ≤ c.CHECKSUM_SIZE :=
  fmt_02x_length_le _ _ hc.checksum_size
    (lt_of_le_of_lt (Nat.mod_le _ _) (checksum_lt c hc frame))

/-- The message and the frame after `get_message`, for full-width fields: the header,
the two texts and the checksum digits, then a tail `z` that has the end sentinel and
the terminator at the last two positions of the message. -/
theorem get_message_full (c : Config) (hc : c.wf) (msg : List Nat) (dt : Nat)
    (m id ck : List Nat) (hdt : dt ≠ 0)
    (hm : ∀ x ∈ m, x ≠ 0) (hid : ∀ x ∈ id, x ≠ 0)
    (hml : m.length = c.DATA_SIZE) (hidl : id.length = c.NODE_ID_SIZE)
    (hck : ck.length = c.CHECKSUM_SIZE + 1) (hmsg : c.MESSAGE_SIZE ≤ msg.length) :
    ∃ z : List Nat,
      get_message c msg ⟨dt, ⟨m ++ [0]⟩, id ++ [0], ck⟩
        = some ([c.START_SIGN, dt] ++ m ++ id
              ++ fmt_02x (checksum c ⟨dt, ⟨m ++ [0]⟩, id ++ [0], ck⟩) ++ z,
            ⟨dt, ⟨m ++ [0]⟩, id ++ [0],
              fmt_02x (checksum c ⟨dt, ⟨m ++ [0]⟩, id ++ [0], ck⟩)
                ++ 0 :: ck.drop
                  ((fmt_02x (checksum c ⟨dt, ⟨m ++ [0]⟩, id ++ [0], ck⟩)).length + 1)⟩)
      ∧ z.length + (2 + c.DATA_SIZE + c.NODE_ID_SIZE
          + (fmt_02x (checksum c ⟨dt, ⟨m ++ [0]⟩, id ++ [0], ck⟩)).length) = msg.length
      ∧ z[c.CHECKSUM_SIZE
          - (fmt_02x (checksum c ⟨dt, ⟨m ++ [0]⟩, id ++ [0], ck⟩)).length]? = some c.END_SIGN
      ∧ z[c.CHECKSUM_SIZE
          - (fmt_02x (checksum c ⟨dt, ⟨m ++ [0]⟩, id ++ [0], ck⟩)).length + 1]? = some 0
      ∧ ((fmt_02x (checksum c ⟨dt, ⟨m ++ [0]⟩, id ++ [0], ck⟩)).length < c.CHECKSUM_SIZE
          → z[0]? = some 0) := by
  have hle := fmt_checksum_length_le c hc ⟨dt, ⟨m ++ [0]⟩, id ++ [0], ck⟩
  have hge := fmt_02x_length_ge (checksum c ⟨dt, ⟨m ++ [0]⟩, id ++ [0], ck⟩)
  have hM := hc.message_size
  have h4 : 4 ≤ msg.length := by omega
  match msg, hmsg, h4 with
  | a :: b :: d :: rest, hmsg, _ =>
    have hrest : c.MESSAGE_SIZE ≤ rest.length + 3 := by simpa using hmsg
    have heq := get_message_eq c a b d dt rest m [] id [] ck hc.start_ne hdt hm hid
      (by omega) (by omega)
    rw [heq]
    generalize hxe : fmt_02x (checksum c ⟨dt, ⟨m ++ [0]⟩, id ++ [0], ck⟩) = hx at hle hge ⊢
    have hP : ([c.START_SIGN, dt] ++ m ++ id ++ hx).length
        = 2 + c.DATA_SIZE + c.NODE_ID_SIZE + hx.length := by
      simp only [List.length_append, List.length_cons, List.length_nil]; omega
    have hi1 : c.MESSAGE_SIZE - 2
        = ([c.START_SIGN, dt] ++ m ++ id ++ hx).length + (c.CHECKSUM_SIZE - hx.length) := by
      omega
    have hi2 : c.MESSAGE_SIZE - 1
        = ([c.START_SIGN, dt] ++ m ++ id ++ hx).length + (c.CHECKSUM_SIZE - hx.length + 1) := by
      omega
    have hR : c.CHECKSUM_SIZE - hx.length + 1
        ≤ (List.drop (m.length + id.length + hx.length) rest).length := by
      rw [List.length_drop]; omega
    have hR2 : (List.drop (m.length + id.length + hx.length) rest).length + 1
        + (2 + c.DATA_SIZE + c.NODE_ID_SIZE + hx.length) = rest.length + 3 := by
      rw [List.length_drop]; omega
    generalize List.drop (m.length + id.length + hx.length) rest = R at hR hR2 ⊢
    generalize hk : c.CHECKSUM_SIZE - hx.length = k at hi1 hi2 hR ⊢
    generalize ([c.START_SIGN, dt] ++ m ++ id ++ hx) = P at hP hi1 hi2 ⊢
    refine ⟨((0 :: R).set k c.END_SIGN).set (k + 1) 0, ?_, ?_, ?_, ?_, ?_⟩
    · rw [store_lt _ _ _ (by simp only [List.length_append, List.length_cons]; omega)]
      simp only [Option.some_bind]
      rw [store_lt _ _ _ (by simp only [List.length_set, List.length_append, List.length_cons]; omega)]
      simp only [Option.map_some']
      rw [hi1, hi2, List.set_append_right _ _ (by omega), List.set_append_right _ _ (by omega)]
      simp
    · simp only [List.length_set, List.length_cons]
      exact hR2
    · rw [List.getElem?_set_ne (by omega), List.getElem?_set_self (by simp only [List.length_cons]; omega)]
    · rw [List.getElem?_set_self (by simp only [List.length_set, List.length_cons]; omega)]
    · intro hlt
      rw [List.getElem?_set_ne (by omega), List.getElem?_set_ne (by omega)]
      simp

/-! ## What `decode_msg` reads -/

theorem find_start_first (c : Config) (msg : List Nat) (s : Nat) (hlen : s < msg.length)
    (hs : msg[s]? = some c.START_SIGN) (hfirst : ∀ i, i < s → msg[i]? ≠ some c.START_SIGN) :
    ∀ fuel start, start ≤ s → s < start + fuel →
      find_start c msg fuel start = some s := by
  intro fuel
  induction fuel with
  | zero => intro start h1 h2; omega
  | succ f ih =>
    intro start h1 h2
    unfold find_start
    by_cases heq : start = s
    · subst heq
      rw [hs]
      simp
    · have hlt : start < s := by omega
      have hb : msg[start]? = some (msg[start]) := List.getElem?_eq_getElem (by omega)
      have hne := hfirst start hlt
      rw [hb] at hne ⊢
      have hne2 : msg[start] ≠ c.START_SIGN := fun h => hne (by rw [h])
      simp only [hne2, if_false]
      exact ih (start + 1) (by omega) (by omega)

theorem decode_msg_at (c : Config) (msg : List Nat) (frame : data_frame) (s : Nat)
    (hs : find_start c msg c.MESSAGE_SIZE 0 = some s)
    (hlen : s + 2 + c.DATA_SIZE + c.NODE_ID_SIZE + c.CHECKSUM_SIZE ≤ msg.length) :
    decode_msg c msg frame
      = some ⟨msg.getD (s + 1) 0, ⟨(msg.drop (s + 2)).take c.DATA_SIZE ++ [0]⟩,
          (msg.drop (s + 2 + c.DATA_SIZE)).take c.NODE_ID_SIZE ++ [0],
          (msg.drop (s + 2 + c.DATA_SIZE + c.NODE_ID_SIZE)).take c.CHECKSUM_SIZE ++ [0]⟩ := by
  have h1 : msg[s + 1]? = some (msg.getD (s + 1) 0) := by
    rw [List.getD_eq_getElem?_getD, List.getElem?_eq_getElem (by omega)]
    rfl
  have h2 : slice msg (s + 2) c.DATA_SIZE = some ((msg.drop (s + 2)).take c.DATA_SIZE) := by
    unfold slice; rw [if_pos (by omega)]
  have h3 : slice msg (s + 2 + c.DATA_SIZE) c.NODE_ID_SIZE
      = some ((msg.drop (s + 2 + c.DATA_SIZE)).take c.NODE_ID_SIZE) := by
    unfold slice; rw [if_pos (by omega)]
  have h4 : slice msg (s + 2 + c.DATA_SIZE + c.NODE_ID_SIZE) c.CHECKSUM_SIZE
      = some ((msg.drop (s + 2 + c.DATA_SIZE + c.NODE_ID_SIZE)).take c.CHECKSUM_SIZE) := by
    unfold slice; rw [if_pos (by omega)]
  unfold decode_msg
  simp only [hs, h1, h2, h3, h4, Option.bind_eq_bind, Option.some_bind]
  by_cases hT : msg.getD (s + 1) 0 = c.TEMPERATURE_TYPE <;>
    by_cases hH : msg.getD (s + 1) 0 = c.HUMIDITY_TYPE <;>
    simp [hT, hH]

theorem layout_fields (a b : Nat) (m id t : List Nat) (D N : Nat)
    (hml : m.length = D) (hidl : id.length = N) :
    (([a, b] ++ m ++ id ++ t).drop 2).take D = m
    ∧ (([a, b] ++ m ++ id ++ t).drop (2 + D)).take N = id
    ∧ ([a, b] ++ m ++ id ++ t).drop (2 + D + N) = t := by
  subst hml hidl
  have e : [a, b] ++ m ++ id ++ t = a :: b :: (m ++ (id ++ t)) := by simp
  rw [e]
  refine ⟨?_, ?_, ?_⟩
  · simp
  · rw [Nat.add_comm 2 m.length]
    simp
  · rw [show 2 + m.length + id.length = (m.length + id.length) + 2 by omega]
    simp only [List.drop_succ_cons]
    rw [← List.append_assoc, ← List.length_append, List.drop_left]

theorem checksum_mod_U16 (c : Config) (frame : data_frame) :
    checksum c frame % U16 = checksum c frame := by
  unfold checksum
  exact Nat.mod_mod _ _

theorem validate_fmt (c : Config) (frame : data_frame) (r : List Nat) :
    validate c { frame with checksum := fmt_02x (checksum c frame) ++ 0 :: r } = true := by
  unfold validate
  simp only [strtoul_16_fmt_02x, checksum_field_irrelevant, checksum_mod_U16, beq_self_eq_true]

/-- Encoding a frame with full-width fields and decoding the message again: the decoder
finds the header at index 0 and reads back the tag, the two texts and the digits of the
checksum. -/
theorem decode_get_message (c : Config) (hc : c.wf) (msg : List Nat) (dt : Nat)
    (m id ck : List Nat) (hdt : dt ≠ 0)
    (hm : ∀ x ∈ m, x ≠ 0) (hid : ∀ x ∈ id, x ≠ 0)
    (hml : m.length = c.DATA_SIZE) (hidl : id.length = c.NODE_ID_SIZE)
    (hck : ck.length = c.CHECKSUM_SIZE + 1) (hmsg : c.MESSAGE_SIZE ≤ msg.length) :
    ∃ (msg' r : List Nat),
      get_message c msg ⟨dt, ⟨m ++ [0]⟩, id ++ [0], ck⟩
        = some (msg', ⟨dt, ⟨m ++ [0]⟩, id ++ [0],
              fmt_02x (checksum c ⟨dt, ⟨m ++ [0]⟩, id ++ [0], ck⟩)
                ++ 0 :: ck.drop
                  ((fmt_02x (checksum c ⟨dt, ⟨m ++ [0]⟩, id ++ [0], ck⟩)).length + 1)⟩)
      ∧ ∀ frame0, decode_msg c msg' frame0
        = some ⟨dt, ⟨m ++ [0]⟩, id ++ [0],
            fmt_02x (checksum c ⟨dt, ⟨m ++ [0]⟩, id ++ [0], ck⟩) ++ 0 :: r⟩ := by
  obtain ⟨z, hget, hzlen, -, -, hz0⟩ :=
    get_message_full c hc msg dt m id ck hdt hm hid hml hidl hck hmsg
  have hle := fmt_checksum_length_le c hc ⟨dt, ⟨m ++ [0]⟩, id ++ [0], ck⟩
  have hM := hc.message_size
  generalize hxe : fmt_02x (checksum c ⟨dt, ⟨m ++ [0]⟩, id ++ [0], ck⟩) = hx
    at hget hzlen hz0 hle ⊢
  have hfield : ∃ r, (hx ++ z).take c.CHECKSUM_SIZE ++ [0] = hx ++ 0 :: r := by
    by_cases hlt : hx.length < c.CHECKSUM_SIZE
    · have h0 := hz0 hlt
      match z, h0 with
      | b :: z', h0 =>
        have hb : b = 0 := by simpa using h0
        subst hb
        refine ⟨z'.take (c.CHECKSUM_SIZE - hx.length - 1) ++ [0], ?_⟩
        rw [List.take_append_eq_append_take, List.take_of_length_le (by omega)]
        rw [show c.CHECKSUM_SIZE - hx.length = (c.CHECKSUM_SIZE - hx.length - 1) + 1 by omega]
        simp
    · refine ⟨[], ?_⟩
      have : hx.length = c.CHECKSUM_SIZE := by omega
      rw [List.take_left' this]
  obtain ⟨r, hr⟩ := hfield
  refine ⟨_, r, hget, ?_⟩
  intro frame0
  have hlen : ([c.START_SIGN, dt] ++ m ++ id ++ hx ++ z).length = msg.length := by
    simp only [List.length_append, List.length_cons, List.length_nil]; omega
  have hfind : find_start c ([c.START_SIGN, dt] ++ m ++ id ++ hx ++ z) c.MESSAGE_SIZE 0
      = some 0 :=
    find_start_first c _ 0 (by omega) (by simp) (by intro i hi; omega) _ _ (by omega) (by omega)
  rw [decode_msg_at c _ frame0 0 hfind (by omega)]
  have e : [c.START_SIGN, dt] ++ m ++ id ++ hx ++ z
      = [c.START_SIGN, dt] ++ m ++ id ++ (hx ++ z) := by simp
  obtain ⟨f1, f2, f3⟩ := layout_fields c.START_SIGN dt m id (hx ++ z) _ _ hml hidl
  rw [e]
  simp only [Nat.zero_add]
  rw [f1, f2, f3, hr]
  simp

theorem cfg_wf : cfg.wf :=
  ⟨by decide, by decide, by decide, by decide, by decide⟩

/-- C1: round trip. For a frame whose tag is the temperature or the humidity tag and
whose measurement and identity are texts of exactly `DATA_SIZE` and `NODE_ID_SIZE`
characters, `get_message` succeeds and `decode_msg` reads back from its message the
same tag, the same measurement text and the same identity. -/
theorem C1_round_trip (c : Config) (hc : c.wf) (hT : c.TEMPERATURE_TYPE ≠ 0)
    (hH : c.HUMIDITY_TYPE ≠ 0) (msg : List Nat) (frame0 : data_frame)
    (dt : Nat) (m id ck : List Nat)
    (hdt : dt = c.TEMPERATURE_TYPE ∨ dt = c.HUMIDITY_TYPE)
    (hm : ∀ x ∈ m, x ≠ 0) (hid : ∀ x ∈ id, x ≠ 0)
    (hml : m.length = c.DATA_SIZE) (hidl : id.length = c.NODE_ID_SIZE)
    (hck : ck.length = c.CHECKSUM_SIZE + 1) (hmsg : c.MESSAGE_SIZE ≤ msg.length) :
    ∃ (msg' : List Nat) (frame' out : data_frame),
      get_message c msg ⟨dt, ⟨m ++ [0]⟩, id ++ [0], ck⟩ = some (msg', frame')
      ∧ decode_msg c msg' frame0 = some out
      ∧ out.data_type = dt
      ∧ out.measurement = ⟨m ++ [0]⟩
      ∧ out.node_id = id ++ [0] := by
  have hdt0 : dt ≠ 0 := by
    rcases hdt with h | h
    · rw [h]; exact hT
    · rw [h]; exact hH
  obtain ⟨msg', r, hget, hdec⟩ :=
    decode_get_message c hc msg dt m id ck hdt0 hm hid hml hidl hck hmsg
  exact ⟨msg', _, _, hget, hdec frame0, rfl, rfl, rfl⟩

/-- C1 at the frame `(Temperature, "23.45", "AB12345678")` and a zeroed buffer of
`MESSAGE_SIZE` bytes. -/
theorem C1_round_trip_witness :
    cfg.wf ∧ cfg.TEMPERATURE_TYPE ≠ 0 ∧ cfg.HUMIDITY_TYPE ≠ 0 ∧
    ∃ (msg' : List Nat) (frame' out : data_frame),
      get_message cfg (List.replicate 21 0) ⟨84, ⟨txt_2345 ++ [0]⟩, txt_AB ++ [0], [0, 0, 0]⟩
        = some (msg', frame')
      ∧ decode_msg cfg msg' frame_T = some out
      ∧ out.data_type = 84
      ∧ out.measurement = ⟨txt_2345 ++ [0]⟩
      ∧ out.node_id = txt_AB ++ [0] :=
  ⟨cfg_wf, by decide, by decide,
    C1_round_trip cfg cfg_wf (by decide) (by decide) (List.replicate 21 0) frame_T 84
      txt_2345 txt_AB [0, 0, 0] (Or.inl rfl) (by decide) (by decide) rfl rfl rfl (by decide)⟩

/-! ## Checksum self-consistency -/

/-- C2 as stated fails: for the frame with the NUL tag, `strcat` appends the
measurement at index 1, the decoder reads every field one byte early, and `validate`
rejects the decoded frame. -/
theorem C2_counterexample :
    get_message cfg (List.replicate 21 0) frame_nul
      = some ([36, 50, 51, 46, 52, 53, 65, 66, 49, 50, 51, 52, 53, 54, 55, 56,
                52, 55, 0, 35, 0],
              { frame_nul with checksum := [52, 55, 0] })
    ∧ decode_msg cfg
        [36, 50, 51, 46, 52, 53, 65, 66, 49, 50, 51, 52, 53, 54, 55, 56, 52, 55, 0, 35, 0]
        frame_nul
      = some ⟨50, ⟨[51, 46, 52, 53, 65, 0]⟩, [66, 49, 50, 51, 52, 53, 54, 55, 56, 52, 0],
          [55, 0, 0]⟩
    ∧ validate cfg ⟨50, ⟨[51, 46, 52, 53, 65, 0]⟩, [66, 49, 50, 51, 52, 53, 54, 55, 56, 52, 0],
          [55, 0, 0]⟩ = false := by
  decide

/-- C2, amended: for every frame with full-width fields and every tag other than NUL,
`validate` accepts the frame right after `get_message` has filled its checksum field,
and accepts the frame that `decode_msg` reads from the message `get_message` wrote. -/
theorem C2_checksum_self_consistent (c : Config) (hc : c.wf) (msg : List Nat)
    (frame0 : data_frame) (dt : Nat) (m id ck : List Nat) (hdt : dt ≠ 0)
    (hm : ∀ x ∈ m, x ≠ 0) (hid : ∀ x ∈ id, x ≠ 0)
    (hml : m.length = c.DATA_SIZE) (hidl : id.length = c.NODE_ID_SIZE)
    (hck : ck.length = c.CHECKSUM_SIZE + 1) (hmsg : c.MESSAGE_SIZE ≤ msg.length) :
    ∃ (msg' : List Nat) (frame' out : data_frame),
      get_message c msg ⟨dt, ⟨m ++ [0]⟩, id ++ [0], ck⟩ = some (msg', frame')
      ∧ validate c frame' = true
      ∧ decode_msg c msg' frame0 = some out
      ∧ validate c out = true := by
  obtain ⟨msg', r, hget, hdec⟩ :=
    decode_get_message c hc msg dt m id ck hdt hm hid hml hidl hck hmsg
  refine ⟨msg', _, _, hget, ?_, hdec frame0, ?_⟩
  · exact validate_fmt c ⟨dt, ⟨m ++ [0]⟩, id ++ [0], ck⟩ _
  · exact validate_fmt c ⟨dt, ⟨m ++ [0]⟩, id ++ [0], ck⟩ r

/-- C2, amended, at a humidity frame with the texts `"23.45"` and `"AB12345678"`. -/
theorem C2_checksum_self_consistent_witness :
    cfg.wf ∧ (72 : Nat) ≠ 0 ∧
    ∃ (msg' : List Nat) (frame' out : data_frame),
      get_message cfg (List.replicate 21 0) ⟨72, ⟨txt_2345 ++ [0]⟩, txt_AB ++ [0], [0, 0, 0]⟩
        = some (msg', frame')
      ∧ validate cfg frame' = true
      ∧ decode_msg cfg msg' frame_T = some out
      ∧ validate cfg out = true :=
  ⟨cfg_wf, by decide,
    C2_checksum_self_consistent cfg cfg_wf (List.replicate 21 0) frame_T 72 txt_2345 txt_AB
      [0, 0, 0] (by decide) (by decide) (by decide) rfl rfl rfl (by decide)⟩

/-! ## The checksum formula -/

/-- C3 at a temperature frame: `checksum` returns 151, the formula of the specification
gives 155; the difference is the measurement `"23.45"` (sum 252) counted a second time
by the `else` branch of the second `if`. -/
theorem C3_checksum_temperature_frame :
    checksum cfg frame_T = 151 ∧ checksum_formula cfg frame_T = 155
    ∧ checksum cfg frame_T = (checksum_formula cfg frame_T + 252) % 256 := by
  decide

/-! ## Wire layout and length -/

theorem fmt_02x_two_digits (v : Nat) (hv : v < 256) : fmt_02x v = hex_fixed 2 v := by
  have hu : v % U16 = v := Nat.mod_eq_of_lt (by unfold U16; omega)
  have hr : hex_fixed 2 v = [hexDigit (v / 16 % 16), hexDigit (v % 16)] := by
    simp [hex_fixed, List.range_succ]
  rw [hr]
  unfold fmt_02x
  rw [hu]
  by_cases h : v < 16
  · have h0 : v / 16 % 16 = 0 := by omega
    have h1 : v % 16 = v := by omega
    have h48 : hexDigit 0 = 48 := by decide
    simp [toHex, h, h0, h1, h48]
  · have h2 : v / 16 < 16 := by omega
    have h3 : v / 16 % 16 = v / 16 := by omega
    simp [toHex, h, h2, h3]

theorem checksum_lt_mod (c : Config) (hpos : 0 < c.CHECKSUM_MOD) (frame : data_frame) :
    checksum c frame < c.CHECKSUM_MOD := by
  unfold checksum
  exact lt_of_le_of_lt (Nat.mod_le _ _) (Nat.mod_lt _ hpos)

/-- The message after `get_message` when the checksum field has two digits: header,
texts, two digits, end sentinel, terminator, and what the buffer has beyond
`MESSAGE_SIZE`. -/
theorem get_message_two_digits (c : Config) (hc : c.wf) (h2 : c.CHECKSUM_SIZE = 2)
    (msg : List Nat) (dt : Nat) (m id ck : List Nat) (hdt : dt ≠ 0)
    (hm : ∀ x ∈ m, x ≠ 0) (hid : ∀ x ∈ id, x ≠ 0)
    (hml : m.length = c.DATA_SIZE) (hidl : id.length = c.NODE_ID_SIZE)
    (hck : ck.length = c.CHECKSUM_SIZE + 1) (hmsg : c.MESSAGE_SIZE ≤ msg.length) :
    ∃ (frame' : data_frame) (tail : List Nat),
      get_message c msg ⟨dt, ⟨m ++ [0]⟩, id ++ [0], ck⟩
        = some ([c.START_SIGN, dt] ++ m ++ id
              ++ hex_fixed 2 (checksum c ⟨dt, ⟨m ++ [0]⟩, id ++ [0], ck⟩)
              ++ c.END_SIGN :: 0 :: tail, frame')
      ∧ tail.length + c.MESSAGE_SIZE = msg.length := by
  obtain ⟨z, hget, hzlen, hEnd, hNul, -⟩ :=
    get_message_full c hc msg dt m id ck hdt hm hid hml hidl hck hmsg
  have hv : checksum c ⟨dt, ⟨m ++ [0]⟩, id ++ [0], ck⟩ < 256 := by
    have h1 := checksum_lt c hc ⟨dt, ⟨m ++ [0]⟩, id ++ [0], ck⟩
    rw [h2] at h1
    omega
  have hM := hc.message_size
  rw [fmt_02x_two_digits _ hv] at hget hzlen hEnd hNul
  have hl : (hex_fixed 2 (checksum c ⟨dt, ⟨m ++ [0]⟩, id ++ [0], ck⟩)).length = 2 := by
    simp [hex_fixed]
  rw [hl] at hzlen hEnd hNul
  rw [h2] at hEnd hNul
  match z, hEnd, hNul with
  | a :: b :: tail, hEnd, hNul =>
    have ha : a = c.END_SIGN := by simpa using hEnd
    have hb : b = 0 := by simpa using hNul
    subst ha hb
    refine ⟨_, tail, hget, ?_⟩
    simp only [List.length_cons] at hzlen
    omega

/-- C4 as stated fails twice. With a checksum field of four digits (constants `cfg4`,
which satisfy the two relations of the claim) `"%02x"` writes the three digits `497`
and a terminator, not `0497`. With two digits and the NUL tag, `strcat` puts the
measurement at index 1, so byte 1 is not the tag. -/
theorem C4_counterexample :
    (cfg4.MESSAGE_SIZE = cfg4.DATA_SIZE + cfg4.NODE_ID_SIZE + cfg4.CHECKSUM_SIZE + 4
      ∧ 0 < cfg4.CHECKSUM_MOD ∧ cfg4.CHECKSUM_MOD ≤ 16 ^ cfg4.CHECKSUM_SIZE
      ∧ get_message cfg4 (List.replicate 23 0) frame_T4
          = some ([36, 84, 50, 51, 46, 52, 53, 65, 66, 49, 50, 51, 52, 53, 54, 55, 56,
                    52, 57, 55, 0, 35, 0],
                  { frame_T4 with checksum := [52, 57, 55, 0, 0] })
      ∧ ¬ wire_layout cfg4 frame_T4
          [36, 84, 50, 51, 46, 52, 53, 65, 66, 49, 50, 51, 52, 53, 54, 55, 56,
            52, 57, 55, 0, 35, 0])
    ∧ (get_message cfg (List.replicate 21 0) frame_nul
          = some ([36, 50, 51, 46, 52, 53, 65, 66, 49, 50, 51, 52, 53, 54, 55, 56,
                    52, 55, 0, 35, 0],
                  { frame_nul with checksum := [52, 55, 0] })
      ∧ ¬ wire_layout cfg frame_nul
          [36, 50, 51, 46, 52, 53, 65, 66, 49, 50, 51, 52, 53, 54, 55, 56,
            52, 55, 0, 35, 0]) := by
  decide

/-- C4, amended: with `CHECKSUM_SIZE = 2`, the width that the format `"%02x"` fixes, and
for every frame with a tag other than NUL and full-width fields, `get_message` writes
the start sentinel, the tag, the measurement, the identity, the checksum as two
lowercase hexadecimal digits, the end sentinel at `MESSAGE_SIZE - 2` and NUL at
`MESSAGE_SIZE - 1`. -/
theorem C4_wire_layout (c : Config) (hc : c.wf) (h2 : c.CHECKSUM_SIZE = 2)
    (msg : List Nat) (dt : Nat) (m id ck : List Nat) (hdt : dt ≠ 0)
    (hm : ∀ x ∈ m, x ≠ 0) (hid : ∀ x ∈ id, x ≠ 0)
    (hml : m.length = c.DATA_SIZE) (hidl : id.length = c.NODE_ID_SIZE)
    (hck : ck.length = c.CHECKSUM_SIZE + 1) (hmsg : c.MESSAGE_SIZE ≤ msg.length) :
    ∃ (msg' : List Nat) (frame' : data_frame),
      get_message c msg ⟨dt, ⟨m ++ [0]⟩, id ++ [0], ck⟩ = some (msg', frame')
      ∧ wire_layout c ⟨dt, ⟨m ++ [0]⟩, id ++ [0], ck⟩ msg' := by
  obtain ⟨frame', tail, hget, htail⟩ :=
    get_message_two_digits c hc h2 msg dt m id ck hdt hm hid hml hidl hck hmsg
  refine ⟨_, frame', hget, ?_⟩
  have hM := hc.message_size
  generalize hv : checksum c ⟨dt, ⟨m ++ [0]⟩, id ++ [0], ck⟩ = v
  have hl : (hex_fixed 2 v).length = 2 := by simp [hex_fixed]
  have hlen : ([c.START_SIGN, dt] ++ m ++ id ++ hex_fixed 2 v
      ++ c.END_SIGN :: 0 :: tail).length = msg.length := by
    simp only [List.length_append, List.length_cons, List.length_nil, hl]; omega
  have hP : ([c.START_SIGN, dt] ++ m ++ id ++ hex_fixed 2 v).length = c.MESSAGE_SIZE - 2 := by
    simp only [List.length_append, List.length_cons, List.length_nil, hl]; omega
  have e : [c.START_SIGN, dt] ++ m ++ id ++ hex_fixed 2 v ++ c.END_SIGN :: 0 :: tail
      = [c.START_SIGN, dt] ++ m ++ id ++ (hex_fixed 2 v ++ c.END_SIGN :: 0 :: tail) := by simp
  obtain ⟨f1, f2, f3⟩ := layout_fields c.START_SIGN dt m id
    (hex_fixed 2 v ++ c.END_SIGN :: 0 :: tail) _ _ hml hidl
  unfold wire_layout
  simp only [hv]
  refine ⟨by simp, by simp, ?_, ?_, ?_, ?_, ?_⟩
  · unfold slice
    rw [if_pos (by omega), e, f1, List.take_left' hml]
  · unfold slice
    rw [if_pos (by omega), e, f2, List.take_left' hidl]
  · unfold slice
    rw [if_pos (by omega), e, f3, h2, List.take_left' hl]
  · rw [List.getElem?_append_right (by omega), hP]
    simp
  · rw [List.getElem?_append_right (by omega), hP]
    rw [show c.MESSAGE_SIZE - 1 - (c.MESSAGE_SIZE - 2) = 1 by omega]
    simp

/-- C4, amended, at the frame `(Temperature, "23.45", "AB12345678")`. -/
theorem C4_wire_layout_witness :
    cfg.wf ∧ cfg.CHECKSUM_SIZE = 2 ∧
    ∃ (msg' : List Nat) (frame' : data_frame),
      get_message cfg (List.replicate 21 0) ⟨84, ⟨txt_2345 ++ [0]⟩, txt_AB ++ [0], [0, 0, 0]⟩
        = some (msg', frame')
      ∧ wire_layout cfg ⟨84, ⟨txt_2345 ++ [0]⟩, txt_AB ++ [0], [0, 0, 0]⟩ msg' :=
  ⟨cfg_wf, rfl,
    C4_wire_layout cfg cfg_wf rfl (List.replicate 21 0) 84 txt_2345 txt_AB [0, 0, 0]
      (by decide) (by decide) (by decide) rfl rfl rfl (by decide)⟩

/-- C5 as stated fails: for the measurement text `"5.00"` of four characters the
message in the zeroed buffer ends after 18 characters, at the NUL that follows the
checksum digits, and its last character is a checksum digit, not the end sentinel.
The same happens for full-width texts and the NUL tag, which `strcat` overwrites. -/
theorem C5_counterexample :
    (get_message cfg (List.replicate cfg.MESSAGE_SIZE 0) frame_short
      = some ([36, 84, 53, 46, 48, 48, 65, 66, 49, 50, 51, 52, 53, 54, 55, 56, 50, 53,
                0, 35, 0],
              { frame_short with checksum := [50, 53, 0] })
    ∧ cstr [36, 84, 53, 46, 48, 48, 65, 66, 49, 50, 51, 52, 53, 54, 55, 56, 50, 53,
              0, 35, 0]
        = some [36, 84, 53, 46, 48, 48, 65, 66, 49, 50, 51, 52, 53, 54, 55, 56, 50, 53]
    ∧ [36, 84, 53, 46, 48, 48, 65, 66, 49, 50, 51, 52, 53, 54, 55, 56, 50,
        53].length ≠ cfg.MESSAGE_SIZE - 1
    ∧ [36, 84, 53, 46, 48, 48, 65, 66, 49, 50, 51, 52, 53, 54, 55, 56, 50,
        53].getLast? ≠ some cfg.END_SIGN)
    ∧ (get_message cfg (List.replicate cfg.MESSAGE_SIZE 0) frame_nul
      = some ([36, 50, 51, 46, 52, 53, 65, 66, 49, 50, 51, 52, 53, 54, 55, 56, 52, 55,
                0, 35, 0],
              { frame_nul with checksum := [52, 55, 0] })
    ∧ cstr [36, 50, 51, 46, 52, 53, 65, 66, 49, 50, 51, 52, 53, 54, 55, 56, 52, 55,
              0, 35, 0]
        = some [36, 50, 51, 46, 52, 53, 65, 66, 49, 50, 51, 52, 53, 54, 55, 56, 52, 55]
    ∧ [36, 50, 51, 46, 52, 53, 65, 66, 49, 50, 51, 52, 53, 54, 55, 56, 52,
        55].length ≠ cfg.MESSAGE_SIZE - 1) := by
  decide

/-- C5, amended: for every frame with a tag other than NUL and full-width fields, and
with `CHECKSUM_SIZE = 2`, the NUL-terminated message that `get_message` writes into a
zeroed buffer of `MESSAGE_SIZE` bytes has `MESSAGE_SIZE - 1` characters, the first is
the start sentinel and the last is the end sentinel. -/
theorem C5_constant_length (c : Config) (hc : c.wf) (h2 : c.CHECKSUM_SIZE = 2)
    (hE : c.END_SIGN ≠ 0) (dt : Nat) (m id ck : List Nat) (hdt : dt ≠ 0)
    (hm : ∀ x ∈ m, x ≠ 0) (hid : ∀ x ∈ id, x ≠ 0)
    (hml : m.length = c.DATA_SIZE) (hidl : id.length = c.NODE_ID_SIZE)
    (hck : ck.length = c.CHECKSUM_SIZE + 1) :
    ∃ (msg' text : List Nat) (frame' : data_frame),
      get_message c (List.replicate c.MESSAGE_SIZE 0) ⟨dt, ⟨m ++ [0]⟩, id ++ [0], ck⟩
        = some (msg', frame')
      ∧ cstr msg' = some text
      ∧ text.length = c.MESSAGE_SIZE - 1
      ∧ text.head? = some c.START_SIGN
      ∧ text.getLast? = some c.END_SIGN := by
  obtain ⟨frame', tail, hget, htail⟩ :=
    get_message_two_digits c hc h2 (List.replicate c.MESSAGE_SIZE 0) dt m id ck hdt hm hid
      hml hidl hck (by simp)
  have hM := hc.message_size
  have ht : tail = [] := by
    apply List.eq_nil_of_length_eq_zero
    simp only [List.length_replicate] at htail
    omega
  subst ht
  generalize hv : checksum c ⟨dt, ⟨m ++ [0]⟩, id ++ [0], ck⟩ = v at hget
  have hl : (hex_fixed 2 v).length = 2 := by simp [hex_fixed]
  have hx0 : ∀ x ∈ hex_fixed 2 v, x ≠ 0 := by
    have hv256 : v < 256 := by
      have h1 := checksum_lt c hc ⟨dt, ⟨m ++ [0]⟩, id ++ [0], ck⟩
      rw [h2, hv] at h1
      omega
    rw [← fmt_02x_two_digits v hv256]
    exact fmt_02x_ne_zero v
  have e : [c.START_SIGN, dt] ++ m ++ id ++ hex_fixed 2 v ++ [c.END_SIGN, 0]
      = ([c.START_SIGN, dt] ++ m ++ id ++ hex_fixed 2 v ++ [c.END_SIGN]) ++ 0 :: [] := by simp
  have hne : ∀ x ∈ [c.START_SIGN, dt] ++ m ++ id ++ hex_fixed 2 v ++ [c.END_SIGN], x ≠ 0 := by
    intro x hx
    simp only [List.mem_append, List.mem_cons, List.mem_singleton, List.not_mem_nil,
      or_false] at hx
    rcases hx with (((((h | h) | h) | h) | h) | h)
    · rw [h]; exact hc.start_ne
    · rw [h]; exact hdt
    · exact hm x h
    · exact hid x h
    · exact hx0 x h
    · rw [h]; exact hE
  refine ⟨_, [c.START_SIGN, dt] ++ m ++ id ++ hex_fixed 2 v ++ [c.END_SIGN], frame', hget,
    ?_, ?_, ?_, ?_⟩
  · rw [e]; exact cstr_text _ _ hne
  · simp only [List.length_append, List.length_cons, List.length_nil, hl]; omega
  · simp
  · exact List.getLast?_concat _

/-- C5, amended, at the frame `(Temperature, "23.45", "AB12345678")`. -/
theorem C5_constant_length_witness :
    cfg.wf ∧ cfg.CHECKSUM_SIZE = 2 ∧ cfg.END_SIGN ≠ 0 ∧
    ∃ (msg' text : List Nat) (frame' : data_frame),
      get_message cfg (List.replicate cfg.MESSAGE_SIZE 0)
          ⟨84, ⟨txt_2345 ++ [0]⟩, txt_AB ++ [0], [0, 0, 0]⟩
        = some (msg', frame')
      ∧ cstr msg' = some text
      ∧ text.length = cfg.MESSAGE_SIZE - 1
      ∧ text.head? = some cfg.START_SIGN
      ∧ text.getLast? = some cfg.END_SIGN :=
  ⟨cfg_wf, rfl, by decide,
    C5_constant_length cfg cfg_wf rfl (by decide) 84 txt_2345 txt_AB [0, 0, 0]
      (by decide) (by decide) (by decide) rfl rfl rfl⟩

/-! ## Decoder field extraction -/

theorem decode_msg_first (c : Config) (msg : List Nat) (frame0 : data_frame) (s : Nat)
    (hs : s < c.MESSAGE_SIZE) (hat : msg[s]? = some c.START_SIGN)
    (hfirst : ∀ i, i < s → msg[i]? ≠ some c.START_SIGN)
    (hlen : s + 2 + c.DATA_SIZE + c.NODE_ID_SIZE + c.CHECKSUM_SIZE ≤ msg.length) :
    decode_msg c msg frame0
      = some ⟨msg.getD (s + 1) 0, ⟨(msg.drop (s + 2)).take c.DATA_SIZE ++ [0]⟩,
          (msg.drop (s + 2 + c.DATA_SIZE)).take c.NODE_ID_SIZE ++ [0],
          (msg.drop (s + 2 + c.DATA_SIZE + c.NODE_ID_SIZE)).take c.CHECKSUM_SIZE ++ [0]⟩ :=
  decode_msg_at c msg frame0 s
    (find_start_first c msg s (by omega) hat hfirst _ _ (by omega) (by omega)) hlen

/-- C6: decoder field extraction. For a message whose first start sentinel is at index
`s < MESSAGE_SIZE` and that has `s + 2 + DATA_SIZE + NODE_ID_SIZE + CHECKSUM_SIZE`
bytes, `decode_msg` yields the tag `msg[s+1]`, the `DATA_SIZE` bytes from `s + 2` as
measurement, the next `NODE_ID_SIZE` bytes as identity and the next `CHECKSUM_SIZE`
bytes as checksum text, each followed by its terminator. Bytes without a start
sentinel put in front of the message leave the decoded frame as it is, as long as the
sentinel stays below index `MESSAGE_SIZE`; for a message that begins with its sentinel
(`s = 0`) these are all prefixes of fewer than `MESSAGE_SIZE` bytes. -/
theorem C6_decode_fields (c : Config) (msg : List Nat) (frame0 : data_frame) (s : Nat)
    (hs : s < c.MESSAGE_SIZE) (hat : msg[s]? = some c.START_SIGN)
    (hfirst : ∀ i, i < s → msg[i]? ≠ some c.START_SIGN)
    (hlen : s + 2 + c.DATA_SIZE + c.NODE_ID_SIZE + c.CHECKSUM_SIZE ≤ msg.length) :
    decode_msg c msg frame0
      = some ⟨msg.getD (s + 1) 0, ⟨(msg.drop (s + 2)).take c.DATA_SIZE ++ [0]⟩,
          (msg.drop (s + 2 + c.DATA_SIZE)).take c.NODE_ID_SIZE ++ [0],
          (msg.drop (s + 2 + c.DATA_SIZE + c.NODE_ID_SIZE)).take c.CHECKSUM_SIZE ++ [0]⟩
    ∧ (∀ pre : List Nat, pre.length + s < c.MESSAGE_SIZE → c.START_SIGN ∉ pre →
        decode_msg c (pre ++ msg) frame0 = decode_msg c msg frame0)
    ∧ (s = 0 → ∀ pre : List Nat, pre.length < c.MESSAGE_SIZE → c.START_SIGN ∉ pre →
        decode_msg c (pre ++ msg) frame0 = decode_msg c msg frame0) := by
  have key : ∀ pre : List Nat, pre.length + s < c.MESSAGE_SIZE → c.START_SIGN ∉ pre →
      decode_msg c (pre ++ msg) frame0 = decode_msg c msg frame0 := ?_
  · exact ⟨decode_msg_first c msg frame0 s hs hat hfirst hlen, key,
      fun h0 pre hpre hnot => key pre (by omega) hnot⟩
  intro pre hpre hnot
  have hat' : (pre ++ msg)[pre.length + s]? = some c.START_SIGN := by
    rw [List.getElem?_append_right (by omega)]
    rw [show pre.length + s - pre.length = s by omega]
    exact hat
  have hfirst' : ∀ i, i < pre.length + s → (pre ++ msg)[i]? ≠ some c.START_SIGN := by
    intro i hi
    by_cases hik : i < pre.length
    · rw [List.getElem?_append_left hik, List.getElem?_eq_getElem hik]
      intro h
      injection h with h
      exact hnot (h ▸ List.getElem_mem hik)
    · rw [List.getElem?_append_right (by omega)]
      exact hfirst _ (by omega)
  rw [decode_msg_first c msg frame0 s hs hat hfirst hlen,
    decode_msg_first c (pre ++ msg) frame0 (pre.length + s) hpre hat' hfirst'
      (by rw [List.length_append]; omega)]
  have d1 : (pre ++ msg).getD (pre.length + s + 1) 0 = msg.getD (s + 1) 0 := by
    rw [List.getD_eq_getElem?_getD, List.getD_eq_getElem?_getD,
      List.getElem?_append_right (by omega)]
    rw [show pre.length + s + 1 - pre.length = s + 1 by omega]
  have d2 : ∀ j, (pre ++ msg).drop (pre.length + s + j) = msg.drop (s + j) := by
    intro j
    rw [show pre.length + s + j = pre.length + (s + j) by omega, List.drop_append]
  have d3 := d2 2
  have d4 := d2 (2 + c.DATA_SIZE)
  have d5 := d2 (2 + c.DATA_SIZE + c.NODE_ID_SIZE)
  simp only [← Nat.add_assoc] at d3 d4 d5
  rw [d1, d3, d4, d5]

/-- C6 at the message of `(Temperature, "23.45", "AB12345678")`, which begins with its
start sentinel: the decoded fields, and every prefix of fewer than `MESSAGE_SIZE` bytes
without a start sentinel. -/
theorem C6_decode_fields_witness :
    0 < cfg.MESSAGE_SIZE
    ∧ msg_AB[0]? = some cfg.START_SIGN
    ∧ decode_msg cfg msg_AB frame_nul
      = some ⟨84, ⟨txt_2345 ++ [0]⟩, txt_AB ++ [0], [57, 55, 0]⟩
    ∧ ∀ pre : List Nat, pre.length < cfg.MESSAGE_SIZE → cfg.START_SIGN ∉ pre →
        decode_msg cfg (pre ++ msg_AB) frame_nul = decode_msg cfg msg_AB frame_nul :=
  have h := C6_decode_fields cfg msg_AB frame_nul 0 (by decide) (by decide) (by decide)
    (by decide)
  ⟨by decide, by decide, h.1, h.2.2 rfl⟩

/-! ## Dispatch and propagation -/

theorem strcmp_eq_zero_iff (a b : List Nat) : strcmp a b = 0 ↔ text a = text b := by
  induction a generalizing b with
  | nil =>
    cases b with
    | nil => simp [strcmp, text]
    | cons y bs =>
      by_cases hy : y = 0
      · simp [strcmp, text, List.takeWhile, hy]
      · simp [strcmp, text, List.takeWhile, hy]
  | cons x as ih =>
    cases b with
    | nil =>
      by_cases hx : x = 0
      · simp [strcmp, text, List.takeWhile, hx]
      · simp [strcmp, text, List.takeWhile, hx]
    | cons y bs =>
      unfold strcmp
      by_cases hxy : x = y
      · subst hxy
        by_cases hx : x = 0
        · simp [text, List.takeWhile, hx]
        · have := ih bs
          simp only [text] at this
          simp [text, List.takeWhile, hx, this]
      · rw [if_neg hxy]
        have h1 : (x : Int) - (y : Int) ≠ 0 := by omega
        by_cases hx : x = 0 <;> by_cases hy : y = 0
        · omega
        · simp [text, List.takeWhile, hx, hy, h1]
        · simp [text, List.takeWhile, hx, hy, h1]
        · simp [text, List.takeWhile, hx, hy, h1, hxy]

theorem received_callback_dispatch {F : Type} (c : Config) (env : Env F) (msg : List Nat)
    (frame0 fr : data_frame) (hdec : decode_msg c msg frame0 = some fr)
    (hval : validate c fr = true) (hidx : ¬ env.get_handler_index fr.data_type < 0)
    (hfor : ¬ (strcmp fr.node_id env.chip_id ≠ 0 ∧ strcmp fr.node_id BROADCAST_ID ≠ 0)) :
    received_callback c env msg frame0
      = some (true, [⟨env.get_handler_index fr.data_type, fr.data_type,
          env.strtof fr.measurement.target⟩]) := by
  unfold received_callback
  simp only [hdec, Option.bind_eq_bind, Option.some_bind, hval, Bool.not_true,
    Bool.false_eq_true, if_false, if_neg hidx, if_neg hfor]
  rfl

/-- C7: corruption. When `validate` rejects the decoded frame, `received_callback`
returns `false` and calls no handler, whatever the tag, the identity of the frame, the
local identity and the handler registry are. -/
theorem C7_corruption_dropped {F : Type} (c : Config) (env : Env F) (msg : List Nat)
    (frame0 fr : data_frame) (hdec : decode_msg c msg frame0 = some fr)
    (hval : validate c fr = false) :
    received_callback c env msg frame0 = some (false, []) := by
  unfold received_callback
  simp [hdec, hval]

/-- C7 at the message with the checksum digits `00` in place of `97`. -/
theorem C7_corruption_dropped_witness :
    decode_msg cfg msg_corrupt frame_nul
        = some ⟨84, ⟨txt_2345 ++ [0]⟩, txt_AB ++ [0], [48, 48, 0]⟩
    ∧ validate cfg ⟨84, ⟨txt_2345 ++ [0]⟩, txt_AB ++ [0], [48, 48, 0]⟩ = false
    ∧ received_callback cfg env_AB msg_corrupt frame_nul = some (false, []) :=
  ⟨by decide, by decide,
    C7_corruption_dropped cfg env_AB msg_corrupt frame_nul
      ⟨84, ⟨txt_2345 ++ [0]⟩, txt_AB ++ [0], [48, 48, 0]⟩ (by decide) (by decide)⟩

/-- C8: propagation is suppressed only on checksum failure. For every message that
`decode_msg` decodes, `received_callback` returns a value, and the value is `false`
exactly when `validate` rejects the decoded frame. -/
theorem C8_false_iff_invalid {F : Type} (c : Config) (env : Env F) (msg : List Nat)
    (frame0 fr : data_frame) (hdec : decode_msg c msg frame0 = some fr) :
    ∃ (ret : Bool) (calls : List (HandlerCall F)),
      received_callback c env msg frame0 = some (ret, calls)
      ∧ (ret = false ↔ validate c fr = false) := by
  by_cases hval : validate c fr = true
  · by_cases hidx : env.get_handler_index fr.data_type < 0
    · exact ⟨true, [], by simp [received_callback, hdec, hval, hidx], by simp [hval]⟩
    · by_cases hfor : strcmp fr.node_id env.chip_id ≠ 0 ∧ strcmp fr.node_id BROADCAST_ID ≠ 0
      · exact ⟨true, [], by simp [received_callback, hdec, hval, hidx, hfor], by simp [hval]⟩
      · exact ⟨true, _, received_callback_dispatch c env msg frame0 fr hdec hval hidx hfor,
          by simp [hval]⟩
  · have hval' : validate c fr = false := by simpa using hval
    exact ⟨false, [], by simp [received_callback, hdec, hval'], by simp [hval']⟩

/-- C8 at the message of `(Temperature, "23.45", "AB12345678")`. -/
theorem C8_false_iff_invalid_witness :
    decode_msg cfg msg_AB frame_nul
        = some ⟨84, ⟨txt_2345 ++ [0]⟩, txt_AB ++ [0], [57, 55, 0]⟩
    ∧ ∃ (ret : Bool) (calls : List (HandlerCall (List Nat))),
      received_callback cfg env_AB msg_AB frame_nul = some (ret, calls)
      ∧ (ret = false
          ↔ validate cfg ⟨84, ⟨txt_2345 ++ [0]⟩, txt_AB ++ [0], [57, 55, 0]⟩ = false) :=
  ⟨by decide,
    C8_false_iff_invalid cfg env_AB msg_AB frame_nul
      ⟨84, ⟨txt_2345 ++ [0]⟩, txt_AB ++ [0], [57, 55, 0]⟩ (by decide)⟩

/-- C9: foreign addressing. For a message that passes validation and whose identity
text differs from the local identity `chip_id` and from the broadcast sentinel
`"0000000000"`, `received_callback` calls no handler and returns `true`, whether or
not a handler is registered for its tag. -/
theorem C9_foreign_not_dispatched {F : Type} (c : Config) (env : Env F) (msg : List Nat)
    (frame0 fr : data_frame) (hdec : decode_msg c msg frame0 = some fr)
    (hval : validate c fr = true)
    (hchip : text fr.node_id ≠ text env.chip_id)
    (hbroad : text fr.node_id ≠ text BROADCAST_ID) :
    received_callback c env msg frame0 = some (true, []) := by
  have h1 : strcmp fr.node_id env.chip_id ≠ 0 := fun h => hchip ((strcmp_eq_zero_iff _ _).mp h)
  have h2 : strcmp fr.node_id BROADCAST_ID ≠ 0 := fun h => hbroad ((strcmp_eq_zero_iff _ _).mp h)
  by_cases hidx : env.get_handler_index fr.data_type < 0
  · simp [received_callback, hdec, hval, hidx]
  · simp [received_callback, hdec, hval, hidx, h1, h2]

/-- C9 at the message of `(Temperature, "23.45", "AB12345678")` received by the node
`"1234567890"`, which has a handler for the temperature tag. -/
theorem C9_foreign_not_dispatched_witness :
    decode_msg cfg msg_AB frame_nul
        = some ⟨84, ⟨txt_2345 ++ [0]⟩, txt_AB ++ [0], [57, 55, 0]⟩
    ∧ validate cfg ⟨84, ⟨txt_2345 ++ [0]⟩, txt_AB ++ [0], [57, 55, 0]⟩ = true
    ∧ text (txt_AB ++ [0]) ≠ text env_digits.chip_id
    ∧ text (txt_AB ++ [0]) ≠ text BROADCAST_ID
    ∧ 0 ≤ env_digits.get_handler_index 84
    ∧ received_callback cfg env_digits msg_AB frame_nul = some (true, []) :=
  ⟨by decide, by decide, by decide, by decide, by decide,
    C9_foreign_not_dispatched cfg env_digits msg_AB frame_nul
      ⟨84, ⟨txt_2345 ++ [0]⟩, txt_AB ++ [0], [57, 55, 0]⟩
      (by decide) (by decide) (by decide) (by decide)⟩

/-- C10: broadcast and local addressing. For a message that passes validation and
whose tag has a registered handler (`get_handler_index >= 0`), if the identity text is
the broadcast sentinel `"0000000000"`, whatever the local identity `chip_id` is, or is
the local identity, then `received_callback` makes exactly one handler call, to the
handler registered for the tag, with the tag of the frame and the value that `strtof`
reads from the measurement, and returns `true`. -/
theorem C10_broadcast_and_local_dispatched {F : Type} (c : Config) (env : Env F)
    (msg : List Nat) (frame0 fr : data_frame) (hdec : decode_msg c msg frame0 = some fr)
    (hval : validate c fr = true)
    (hidx : 0 ≤ env.get_handler_index fr.data_type)
    (haddr : text fr.node_id = text BROADCAST_ID ∨ text fr.node_id = text env.chip_id) :
    received_callback c env msg frame0
      = some (true, [⟨env.get_handler_index fr.data_type, fr.data_type,
          env.strtof fr.measurement.target⟩]) := by
  apply received_callback_dispatch c env msg frame0 fr hdec hval (by omega)
  rintro ⟨h1, h2⟩
  rcases haddr with h | h
  · exact h2 ((strcmp_eq_zero_iff _ _).mpr h)
  · exact h1 ((strcmp_eq_zero_iff _ _).mpr h)

/-- C10 at the broadcast message of `(Temperature, "23.45", "0000000000")` received by
the node `"AB12345678"`. -/
theorem C10_broadcast_and_local_dispatched_witness :
    decode_msg cfg msg_broadcast frame_nul
        = some ⟨84, ⟨txt_2345 ++ [0]⟩, BROADCAST_ID, [53, 48, 0]⟩
    ∧ validate cfg ⟨84, ⟨txt_2345 ++ [0]⟩, BROADCAST_ID, [53, 48, 0]⟩ = true
    ∧ 0 ≤ env_AB.get_handler_index 84
    ∧ received_callback cfg env_AB msg_broadcast frame_nul
        = some (true, [⟨env_AB.get_handler_index 84, 84, env_AB.strtof (txt_2345 ++ [0])⟩]) :=
  ⟨by decide, by decide, by decide,
    C10_broadcast_and_local_dispatched cfg env_AB msg_broadcast frame_nul
      ⟨84, ⟨txt_2345 ++ [0]⟩, BROADCAST_ID, [53, 48, 0]⟩
      (by decide) (by decide) (by decide) (Or.inl rfl)⟩


/-- C11: unknown type. For a message that passes validation and whose tag has no
registered handler (`get_handler_index < 0`), `received_callback` calls no handler and
returns `true`, whatever the identity of the frame is. -/
theorem C11_unknown_type_not_dispatched {F : Type} (c : Config) (env : Env F)
    (msg : List Nat) (frame0 fr : data_frame) (hdec : decode_msg c msg frame0 = some fr)
    (hval : validate c fr = true) (hidx : env.get_handler_index fr.data_type < 0) :
    received_callback c env msg frame0 = some (true, []) := by
  simp [received_callback, hdec, hval, hidx]

/-- C11 at the message of `(Temperature, "23.45", "AB12345678")` received by the node
`"AB12345678"` itself, and at the broadcast message, with no handler registered. -/
theorem C11_unknown_type_not_dispatched_witness :
    decode_msg cfg msg_AB frame_nul
        = some ⟨84, ⟨txt_2345 ++ [0]⟩, txt_AB ++ [0], [57, 55, 0]⟩
    ∧ validate cfg ⟨84, ⟨txt_2345 ++ [0]⟩, txt_AB ++ [0], [57, 55, 0]⟩ = true
    ∧ env_none.get_handler_index 84 < 0
    ∧ text (txt_AB ++ [0]) = text env_none.chip_id
    ∧ received_callback cfg env_none msg_AB frame_nul = some (true, [])
    ∧ received_callback cfg env_none msg_broadcast frame_nul = some (true, []) :=
  ⟨by decide, by decide, by decide, by decide,
    C11_unknown_type_not_dispatched cfg env_none msg_AB frame_nul
      ⟨84, ⟨txt_2345 ++ [0]⟩, txt_AB ++ [0], [57, 55, 0]⟩ (by decide) (by decide) (by decide),
    C11_unknown_type_not_dispatched cfg env_none msg_broadcast frame_nul
      ⟨84, ⟨txt_2345 ++ [0]⟩, BROADCAST_ID, [53, 48, 0]⟩ (by decide) (by decide) (by decide)⟩

/-! ## Messages without a start sentinel -/

/-- C12 at a message of 42 bytes that holds no start sentinel at all: the scan of
`decode_msg` ends with `start = MESSAGE_SIZE`, the fields are read from index
`MESSAGE_SIZE + 1` on as if the sentinel had been found, the frame passes `validate`,
and `received_callback` calls the handler and returns `true`. -/
theorem C12_unframed_message_dispatched :
    cfg.START_SIGN ∉ msg_unframed
    ∧ find_start cfg msg_unframed cfg.MESSAGE_SIZE 0 = some cfg.MESSAGE_SIZE
    ∧ decode_msg cfg msg_unframed frame_nul
        = some ⟨84, ⟨txt_2345 ++ [0]⟩, txt_AB ++ [0], [57, 55, 0]⟩
    ∧ validate cfg ⟨84, ⟨txt_2345 ++ [0]⟩, txt_AB ++ [0], [57, 55, 0]⟩ = true
    ∧ received_callback cfg env_AB msg_unframed frame_nul
        = some (true, [⟨env_AB.get_handler_index 84, 84, env_AB.strtof (txt_2345 ++ [0])⟩]) :=
  ⟨by decide, by decide, by decide, by decide,
    received_callback_dispatch cfg env_AB msg_unframed frame_nul
      ⟨84, ⟨txt_2345 ++ [0]⟩, txt_AB ++ [0], [57, 55, 0]⟩
      (by decide) (by decide) (by decide) (by decide)⟩


theorem find_start_absent (c : Config) (msg : List Nat) (hlen : c.MESSAGE_SIZE ≤ msg.length)
    (habs : ∀ i, i < c.MESSAGE_SIZE → msg[i]? ≠ some c.START_SIGN) :
    ∀ fuel start, start + fuel = c.MESSAGE_SIZE →
      find_start c msg fuel start = some c.MESSAGE_SIZE := by
  intro fuel
  induction fuel with
  | zero => intro start h; simp [find_start]; omega
  | succ f ih =>
    intro start h
    unfold find_start
    have hb : msg[start]? = some (msg[start]) := List.getElem?_eq_getElem (by omega)
    have hne := habs start (by omega)
    rw [hb] at hne ⊢
    have hne2 : msg[start] ≠ c.START_SIGN := fun h => hne (by rw [h])
    simp only [hne2, if_false]
    exact ih (start + 1) (by omega)

/-- A message that is long enough and has no start sentinel among its first
`MESSAGE_SIZE` bytes is decoded from index `MESSAGE_SIZE` on. -/
theorem decode_msg_absent (c : Config) (msg : List Nat) (frame0 : data_frame)
    (habs : ∀ i, i < c.MESSAGE_SIZE → msg[i]? ≠ some c.START_SIGN)
    (hlen : c.MESSAGE_SIZE + 2 + c.DATA_SIZE + c.NODE_ID_SIZE + c.CHECKSUM_SIZE
      ≤ msg.length) :
    decode_msg c msg frame0
      = some ⟨msg.getD (c.MESSAGE_SIZE + 1) 0,
          ⟨(msg.drop (c.MESSAGE_SIZE + 2)).take c.DATA_SIZE ++ [0]⟩,
          (msg.drop (c.MESSAGE_SIZE + 2 + c.DATA_SIZE)).take c.NODE_ID_SIZE ++ [0],
          (msg.drop (c.MESSAGE_SIZE + 2 + c.DATA_SIZE + c.NODE_ID_SIZE)).take c.CHECKSUM_SIZE
            ++ [0]⟩ :=
  decode_msg_at c msg frame0 c.MESSAGE_SIZE
    (find_start_absent c msg (by omega) habs _ _ (by omega)) hlen

/-! ## The end sentinel -/

/-- What `decode_msg` returns depends on the bytes up to the end of the checksum field
only. -/
theorem decode_msg_append (c : Config) (p t : List Nat) (frame0 : data_frame) (s : Nat)
    (hs : s < c.MESSAGE_SIZE) (hat : p[s]? = some c.START_SIGN)
    (hfirst : ∀ i, i < s → p[i]? ≠ some c.START_SIGN)
    (hlen : s + 2 + c.DATA_SIZE + c.NODE_ID_SIZE + c.CHECKSUM_SIZE ≤ p.length) :
    decode_msg c (p ++ t) frame0
      = some ⟨p.getD (s + 1) 0, ⟨(p.drop (s + 2)).take c.DATA_SIZE ++ [0]⟩,
          (p.drop (s + 2 + c.DATA_SIZE)).take c.NODE_ID_SIZE ++ [0],
          (p.drop (s + 2 + c.DATA_SIZE + c.NODE_ID_SIZE)).take c.CHECKSUM_SIZE ++ [0]⟩ := by
  have hat' : (p ++ t)[s]? = some c.START_SIGN := by
    rw [List.getElem?_append_left (by omega)]; exact hat
  have hfirst' : ∀ i, i < s → (p ++ t)[i]? ≠ some c.START_SIGN := by
    intro i hi
    rw [List.getElem?_append_left (by omega)]; exact hfirst i hi
  rw [decode_msg_first c (p ++ t) frame0 s hs hat' hfirst'
    (by rw [List.length_append]; omega)]
  have g : (p ++ t).getD (s + 1) 0 = p.getD (s + 1) 0 := by
    rw [List.getD_eq_getElem?_getD, List.getD_eq_getElem?_getD,
      List.getElem?_append_left (by omega)]
  have d : ∀ k n, k + n ≤ p.length → ((p ++ t).drop k).take n = (p.drop k).take n := by
    intro k n hkn
    rw [List.drop_append_of_le_length (by omega),
      List.take_append_of_le_length (by rw [List.length_drop]; omega)]
  rw [g, d _ _ (by omega), d _ _ (by omega), d _ _ (by omega)]

/-- C13: the end sentinel is not validated. Two messages that agree on every byte up to
and including the checksum field, with the first start sentinel at the same index
`s < MESSAGE_SIZE`, and that differ in the bytes after the checksum field, are decoded
to the same frame, and `received_callback` returns the same value and makes the same
handler calls for both, under the same local identity and registry. -/
theorem C13_end_sentinel_not_validated {F : Type} (c : Config) (env : Env F)
    (p t1 t2 : List Nat) (frame0 : data_frame) (s : Nat)
    (hs : s < c.MESSAGE_SIZE) (hat : p[s]? = some c.START_SIGN)
    (hfirst : ∀ i, i < s → p[i]? ≠ some c.START_SIGN)
    (hlen : p.length = s + 2 + c.DATA_SIZE + c.NODE_ID_SIZE + c.CHECKSUM_SIZE) :
    (∃ fr, decode_msg c (p ++ t1) frame0 = some fr ∧ decode_msg c (p ++ t2) frame0 = some fr)
    ∧ received_callback c env (p ++ t1) frame0 = received_callback c env (p ++ t2) frame0 := by
  have h1 := decode_msg_append c p t1 frame0 s hs hat hfirst (by omega)
  have h2 := decode_msg_append c p t2 frame0 s hs hat hfirst (by omega)
  refine ⟨⟨_, h1, h2⟩, ?_⟩
  unfold received_callback
  rw [h1, h2]

/-- C13 at the message of `(Temperature, "23.45", "AB12345678")` up to its checksum
digits, followed by the end sentinel and the terminator or by three other bytes. -/
theorem C13_end_sentinel_not_validated_witness :
    (0 < cfg.MESSAGE_SIZE)
    ∧ (msg_AB.take 19 ++ [35, 0] = msg_AB)
    ∧ (∃ fr, decode_msg cfg (msg_AB.take 19 ++ [35, 0]) frame_nul = some fr
        ∧ decode_msg cfg (msg_AB.take 19 ++ [1, 2, 3]) frame_nul = some fr)
    ∧ received_callback cfg env_AB (msg_AB.take 19 ++ [35, 0]) frame_nul
        = received_callback cfg env_AB (msg_AB.take 19 ++ [1, 2, 3]) frame_nul :=
  have h := C13_end_sentinel_not_validated cfg env_AB (msg_AB.take 19) [35, 0] [1, 2, 3]
    frame_nul 0 (by decide) (by decide) (by decide) (by decide)
  ⟨by decide, by decide, h.1, h.2⟩


/-! ## The checksum as a sum -/

theorem take_succ_sum (buf : List Nat) (n : Nat) :
    (buf.take (n + 1)).sum = (buf.take n).sum + buf.getD n 0 := by
  rw [List.take_succ, List.sum_append, List.getD_eq_getElem?_getD]
  cases buf[n]? <;> simp

theorem sum_loop_eq (n : Nat) (buf : List Nat) (acc : Nat) (hacc : acc < U16) :
    sum_loop n buf acc = (acc + (buf.take n).sum) % U16 := by
  unfold sum_loop
  induction n with
  | zero => simp [Nat.mod_eq_of_lt hacc]
  | succ k ih =>
    rw [List.range_succ, List.foldl_append, ih, take_succ_sum]
    simp only [List.foldl_cons, List.foldl_nil]
    rw [Nat.mod_add_mod]
    congr 1
    omega

theorem sum_exact_eq (n : Nat) (buf : List Nat) (acc : Nat) :
    sum_exact n buf acc = acc + (buf.take n).sum := by
  unfold sum_exact
  induction n with
  | zero => simp
  | succ k ih =>
    rw [List.range_succ, List.foldl_append, ih, take_succ_sum]
    simp only [List.foldl_cons, List.foldl_nil]
    omega

/-- The exact accumulator of `checksum`: the measurement is added twice for the
temperature tag and once for every other tag. -/
theorem checksum_exact_eq (c : Config) (frame : data_frame) :
    checksum_exact c frame
      = c.START_SIGN + frame.data_type
        + (if frame.data_type = c.TEMPERATURE_TYPE then 2 else 1)
          * (frame.measurement.bytes.take c.DATA_SIZE).sum
        + (frame.node_id.take c.NODE_ID_SIZE).sum := by
  unfold checksum_exact
  simp only [data.temperature, data.humidity, data.target, ite_self, sum_exact_eq]
  split <;> omega

/-- The value of `checksum` is the exact accumulator reduced modulo 65536, then modulo
`CHECKSUM_MOD`. -/
theorem checksum_eq_exact (c : Config) (frame : data_frame) :
    checksum c frame = checksum_exact c frame % U16 % c.CHECKSUM_MOD % U16 := by
  have hU : ∀ x : Nat, x % U16 < U16 := fun x => Nat.mod_lt _ (by decide)
  rw [checksum_exact_eq]
  unfold checksum
  simp only [data.temperature, data.humidity, data.target, ite_self]
  by_cases hT : frame.data_type = c.TEMPERATURE_TYPE
  · simp only [if_pos hT]
    rw [sum_loop_eq _ _ _ (hU _), sum_loop_eq _ _ _ (hU _), sum_loop_eq _ _ _ (hU _)]
    congr 2
    simp only [U16]
    omega
  · simp only [if_neg hT]
    rw [sum_loop_eq _ _ _ (hU _), sum_loop_eq _ _ _ (hU _)]
    congr 2
    simp only [U16]
    omega


/-! ## Where single-byte changes are detected -/

theorem sum_take_set (l : List Nat) :
    ∀ (n i b' : Nat), i < n → i < l.length →
      ((l.set i b').take n).sum + l.getD i 0 = (l.take n).sum + b' := by
  induction l with
  | nil => intro n i b' _ hi; simp at hi
  | cons a l ih =>
    intro n i b' hin hil
    cases n with
    | zero => omega
    | succ n =>
      cases i with
      | zero => simp; omega
      | succ i =>
        have := ih n i b' (by omega) (by simpa using hil)
        simp only [List.set_cons_succ, List.take_succ_cons, List.sum_cons,
          List.getD_cons_succ]
        omega

theorem not_modEq_of_add_eq (x x' b b' M : Nat) (h : x' + b = x + b')
    (hne : b' % M ≠ b % M) : x' % M ≠ x % M := by
  intro hx
  have h1 : (x' + b) % M = (x + b) % M := Nat.ModEq.add_right b hx
  rw [h] at h1
  have h2 : b' % M = b % M := Nat.ModEq.add_left_cancel' x h1
  exact hne h2

/-- A frame with the checksum field of an accepted frame and a different exact sum
modulo `CHECKSUM_MOD` is rejected, when both sums fit 16 bits. -/
theorem validate_false_of_sum_ne (c : Config) (f f' : data_frame)
    (hval : validate c f = true) (hck : f'.checksum = f.checksum)
    (hfit : checksum_exact c f < U16) (hfit' : checksum_exact c f' < U16)
    (hne : checksum_exact c f' % c.CHECKSUM_MOD ≠ checksum_exact c f % c.CHECKSUM_MOD) :
    validate c f' = false := by
  have hmod : ∀ x : Nat, x < U16 → x % U16 % c.CHECKSUM_MOD % U16 = x % c.CHECKSUM_MOD := by
    intro x hx
    rw [Nat.mod_eq_of_lt hx]
    exact Nat.mod_eq_of_lt (lt_of_le_of_lt (Nat.mod_le _ _) hx)
  unfold validate at hval ⊢
  rw [checksum_eq_exact, hmod _ hfit] at hval
  rw [checksum_eq_exact, hmod _ hfit', hck]
  simp only [beq_iff_eq] at hval
  simp only [beq_eq_false_iff_ne, hval]
  exact fun h => hne h.symm

/-- A change of one of the `NODE_ID_SIZE` identity bytes by a difference that is not a
multiple of `CHECKSUM_MOD` is detected, for every tag. -/
theorem tamper_node_id_detected (c : Config) (f : data_frame) (i b' : Nat)
    (hval : validate c f = true) (hi : i < c.NODE_ID_SIZE) (hil : i < f.node_id.length)
    (hfit : checksum_exact c f < U16)
    (hfit' : checksum_exact c { f with node_id := f.node_id.set i b' } < U16)
    (hne : b' % c.CHECKSUM_MOD ≠ f.node_id.getD i 0 % c.CHECKSUM_MOD) :
    validate c { f with node_id := f.node_id.set i b' } = false := by
  refine validate_false_of_sum_ne c f { f with node_id := f.node_id.set i b' } hval rfl
    hfit hfit' ?_
  apply not_modEq_of_add_eq _ _ (f.node_id.getD i 0) b' _ _ hne
  have := sum_take_set f.node_id c.NODE_ID_SIZE i b' hi hil
  rw [checksum_exact_eq, checksum_exact_eq]
  simp only
  omega

/-- A change of one of the `DATA_SIZE` measurement bytes by a difference that is not a
multiple of `CHECKSUM_MOD` is detected when the tag is not the temperature tag. -/
theorem tamper_measurement_detected (c : Config) (f : data_frame) (i b' : Nat)
    (hT : f.data_type ≠ c.TEMPERATURE_TYPE)
    (hval : validate c f = true) (hi : i < c.DATA_SIZE)
    (hil : i < f.measurement.bytes.length)
    (hfit : checksum_exact c f < U16)
    (hfit' : checksum_exact c { f with measurement := ⟨f.measurement.bytes.set i b'⟩ } < U16)
    (hne : b' % c.CHECKSUM_MOD ≠ f.measurement.bytes.getD i 0 % c.CHECKSUM_MOD) :
    validate c { f with measurement := ⟨f.measurement.bytes.set i b'⟩ } = false := by
  refine validate_false_of_sum_ne c f
    { f with measurement := ⟨f.measurement.bytes.set i b'⟩ } hval rfl hfit hfit' ?_
  apply not_modEq_of_add_eq _ _ (f.measurement.bytes.getD i 0) b' _ _ hne
  have := sum_take_set f.measurement.bytes c.DATA_SIZE i b' hi hil
  rw [checksum_exact_eq, checksum_exact_eq]
  simp only [if_neg hT, Nat.one_mul]
  omega

/-! ## Tampering and the limits of the checksum -/

/-- C14 at a temperature frame: `validate` accepts the frame
`(Temperature, "23.45", "AB12345678")` with the checksum digits `97`, and still accepts
it after the first measurement byte 50 is replaced by 178, although the difference 128
is not a multiple of `CHECKSUM_MOD = 256`: the measurement is added twice, so the sum
changes by 256. -/
theorem C14_tamper_undetected :
    validate cfg frame_valid = true
    ∧ frame_tampered.measurement.bytes = frame_valid.measurement.bytes.set 0 178
    ∧ frame_tampered.node_id = frame_valid.node_id
    ∧ frame_tampered.checksum = frame_valid.checksum
    ∧ frame_tampered.data_type = frame_valid.data_type
    ∧ (178 - 50) % cfg.CHECKSUM_MOD ≠ 0
    ∧ checksum cfg frame_valid = 151
    ∧ checksum cfg frame_tampered = 151
    ∧ validate cfg frame_tampered = true := by
  decide

/-- C15: detection is not complete. `checksum` is unchanged by every permutation of
the `NODE_ID_SIZE` bytes of the identity and by every permutation of the `DATA_SIZE`
bytes of the measurement; and there are two frames with different identities
(`"AB12345678"` and `"BA12345678"`) and the same checksum field that `validate` both
accepts. -/
theorem C15_permutation_invariant (c : Config) (dt : Nat) (m m' mt id id' it ck : List Nat)
    (hm : m.Perm m') (hid : id.Perm id')
    (hml : m.length = c.DATA_SIZE) (hidl : id.length = c.NODE_ID_SIZE) :
    checksum c ⟨dt, ⟨m' ++ mt⟩, id' ++ it, ck⟩ = checksum c ⟨dt, ⟨m ++ mt⟩, id ++ it, ck⟩
    ∧ ∃ f1 f2 : data_frame,
        validate cfg f1 = true ∧ validate cfg f2 = true
        ∧ f1.checksum = f2.checksum ∧ f1.node_id ≠ f2.node_id := by
  constructor
  · have hml' : m'.length = c.DATA_SIZE := by rw [← hm.length_eq]; exact hml
    have hidl' : id'.length = c.NODE_ID_SIZE := by rw [← hid.length_eq]; exact hidl
    rw [checksum_eq_exact, checksum_eq_exact, checksum_exact_eq, checksum_exact_eq]
    simp only [List.take_left' hml, List.take_left' hml', List.take_left' hidl,
      List.take_left' hidl', hm.sum_eq, hid.sum_eq]
  · exact ⟨frame_valid, frame_swapped, by decide, by decide, by decide, by decide⟩

/-- C15 at the identities `"AB12345678"` and `"BA12345678"`. -/
theorem C15_permutation_invariant_witness :
    List.Perm txt_AB [66, 65, 49, 50, 51, 52, 53, 54, 55, 56]
    ∧ checksum cfg ⟨84, ⟨txt_2345 ++ [0]⟩, [66, 65, 49, 50, 51, 52, 53, 54, 55, 56] ++ [0],
        [57, 55, 0]⟩
      = checksum cfg ⟨84, ⟨txt_2345 ++ [0]⟩, txt_AB ++ [0], [57, 55, 0]⟩ :=
  ⟨List.Perm.swap 66 65 _,
    (C15_permutation_invariant cfg 84 txt_2345 txt_2345 [0] txt_AB
      [66, 65, 49, 50, 51, 52, 53, 54, 55, 56] [0] [57, 55, 0]
      (List.Perm.refl _) (List.Perm.swap 66 65 _) rfl rfl).1⟩

/-! ## The double count and the width of the accumulator -/

/-- C17: temperature frames count the measurement twice. When the exact sum fits the
`uint16_t` accumulator, `checksum` of a frame with the temperature tag is the start
sentinel, the tag, twice the sum of the `DATA_SIZE` measurement bytes and the sum of
the `NODE_ID_SIZE` identity bytes, modulo `CHECKSUM_MOD`; for every other tag the
measurement bytes are counted once. -/
theorem C17_temperature_counted_twice (c : Config) (frame : data_frame)
    (hfit : c.START_SIGN + frame.data_type
      + 2 * (frame.measurement.bytes.take c.DATA_SIZE).sum
      + (frame.node_id.take c.NODE_ID_SIZE).sum < U16) :
    (frame.data_type = c.TEMPERATURE_TYPE →
      checksum c frame = checksum_formula_twice c frame)
    ∧ (frame.data_type ≠ c.TEMPERATURE_TYPE →
      checksum c frame = checksum_formula c frame) := by
  have hmod : ∀ x : Nat, x < U16 → x % U16 % c.CHECKSUM_MOD % U16 = x % c.CHECKSUM_MOD := by
    intro x hx
    rw [Nat.mod_eq_of_lt hx]
    exact Nat.mod_eq_of_lt (lt_of_le_of_lt (Nat.mod_le _ _) hx)
  constructor
  · intro hT
    rw [checksum_eq_exact, checksum_exact_eq, if_pos hT]
    unfold checksum_formula_twice
    exact hmod _ hfit
  · intro hT
    rw [checksum_eq_exact, checksum_exact_eq, if_neg hT, Nat.one_mul]
    unfold checksum_formula
    exact hmod _ (by omega)

/-- C17 at the temperature frame `(Temperature, "23.45", "AB12345678")`: the sum
36 + 84 + 2 * 252 + 551 = 1175 fits 16 bits. -/
theorem C17_temperature_counted_twice_witness :
    cfg.START_SIGN + frame_T.data_type
      + 2 * (frame_T.measurement.bytes.take cfg.DATA_SIZE).sum
      + (frame_T.node_id.take cfg.NODE_ID_SIZE).sum < U16
    ∧ (frame_T.data_type = cfg.TEMPERATURE_TYPE →
      checksum cfg frame_T = checksum_formula_twice cfg frame_T)
    ∧ (frame_T.data_type ≠ cfg.TEMPERATURE_TYPE →
      checksum cfg frame_T = checksum_formula cfg frame_T) :=
  ⟨by decide, C17_temperature_counted_twice cfg frame_T (by decide)⟩


theorem sum_take_le (buf : List Nat) (n : Nat) (h : ∀ b ∈ buf, b ≤ 255) :
    (buf.take n).sum ≤ 255 * n := by
  have h1 : ∀ b ∈ buf.take n, b ≤ 255 := fun b hb => h b (List.mem_of_mem_take hb)
  have h2 := List.sum_le_card_nsmul (buf.take n) 255 h1
  have h3 : (buf.take n).length ≤ n := List.length_take_le n buf
  simp only [smul_eq_mul] at h2
  calc (buf.take n).sum ≤ (buf.take n).length * 255 := h2
    _ ≤ n * 255 := Nat.mul_le_mul_right _ h3
    _ = 255 * n := Nat.mul_comm _ _

/-- C19: no 16-bit wraparound. With `DATA_SIZE = 5`, `NODE_ID_SIZE = 10` and every byte
in `0..255`, the exact accumulator of `checksum` is at most
`255 * (2 + 2 * DATA_SIZE + NODE_ID_SIZE) = 5610`, which is below 65536 and is reached
by a temperature frame of bytes 255; so `checksum` returns the exact sum modulo
`CHECKSUM_MOD`, a value below `CHECKSUM_MOD`. -/
theorem C19_no_wraparound (c : Config) (frame : data_frame)
    (hD : c.DATA_SIZE = 5) (hN : c.NODE_ID_SIZE = 10) (hpos : 0 < c.CHECKSUM_MOD)
    (hS : c.START_SIGN ≤ 255) (hdt : frame.data_type ≤ 255)
    (hm : ∀ b ∈ frame.measurement.bytes, b ≤ 255) (hid : ∀ b ∈ frame.node_id, b ≤ 255) :
    checksum_exact c frame ≤ 255 * (2 + 2 * c.DATA_SIZE + c.NODE_ID_SIZE)
    ∧ 255 * (2 + 2 * c.DATA_SIZE + c.NODE_ID_SIZE) ≤ 65535
    ∧ checksum c frame = checksum_exact c frame % c.CHECKSUM_MOD
    ∧ checksum c frame < c.CHECKSUM_MOD
    ∧ checksum_exact cfg_max frame_max
        = 255 * (2 + 2 * cfg_max.DATA_SIZE + cfg_max.NODE_ID_SIZE) := by
  have hb1 := sum_take_le frame.measurement.bytes c.DATA_SIZE hm
  have hb2 := sum_take_le frame.node_id c.NODE_ID_SIZE hid
  have hle : checksum_exact c frame ≤ 255 * (2 + 2 * c.DATA_SIZE + c.NODE_ID_SIZE) := by
    rw [checksum_exact_eq]
    split <;> omega
  have hlt : checksum_exact c frame < U16 := by
    rw [hD, hN] at hle
    simp only [U16]
    omega
  have heq : checksum c frame = checksum_exact c frame % c.CHECKSUM_MOD := by
    rw [checksum_eq_exact, Nat.mod_eq_of_lt hlt]
    exact Nat.mod_eq_of_lt (lt_of_le_of_lt (Nat.mod_le _ _) hlt)
  refine ⟨hle, by rw [hD, hN]; decide, heq, ?_, by decide⟩
  rw [heq]
  exact Nat.mod_lt _ hpos

/-- C19 at the frame `(Temperature, "23.45", "AB12345678")`. -/
theorem C19_no_wraparound_witness :
    cfg.DATA_SIZE = 5 ∧ cfg.NODE_ID_SIZE = 10 ∧ 0 < cfg.CHECKSUM_MOD
    ∧ checksum_exact cfg frame_T = 1175
    ∧ checksum_exact cfg frame_T ≤ 255 * (2 + 2 * cfg.DATA_SIZE + cfg.NODE_ID_SIZE)
    ∧ checksum cfg frame_T = checksum_exact cfg frame_T % cfg.CHECKSUM_MOD
    ∧ checksum cfg frame_T < cfg.CHECKSUM_MOD :=
  have h := C19_no_wraparound cfg frame_T rfl rfl (by decide) (by decide) (by decide)
    (by decide) (by decide)
  ⟨rfl, rfl, by decide, by decide, h.1, h.2.2.1, h.2.2.2.1⟩


/-! ## The test run of `loop` -/

theorem loop_stopped (c : Config) (T : Bool) (frame : data_frame) (g : Globals) (now : Nat)
    (h : g.start_test = false) : loop c T frame g now = some (g, none) := by
  unfold loop
  simp [h]

theorem run_stopped (c : Config) (T : Bool) (frame : data_frame) (g : Globals)
    (h : g.start_test = false) (times : List Nat) :
    run c T frame g times = some (g, []) := by
  induction times with
  | nil => rfl
  | cons now rest ih =>
    unfold run
    rw [loop_stopped c T frame g now h]
    simp only [ih]
    rfl

theorem loop_not_due (c : Config) (T : Bool) (frame : data_frame) (g : Globals) (now : Nat)
    (h : ¬ elapsed (now % U32) g.previous_millis ≥ g.interval_millis) :
    loop c T frame g now = some (g, none) := by
  unfold loop
  simp only [h, and_false, if_false]
  rfl

theorem loop_due (c : Config) (T : Bool) (frame : data_frame) (g : Globals) (now : Nat)
    (text : List Nat) (hstart : g.start_test = true)
    (hcount : g.message_counter < 2000)
    (hmsg : loop_message c T g.chip_id frame = some text)
    (h : elapsed (now % U32) g.previous_millis ≥ g.interval_millis) :
    loop c T frame g now
      = some ({ g with previous_millis := now % U32,
                       message_counter := g.message_counter + 1,
                       start_test := decide (g.message_counter + 1 ≠ 2000) }, some text) := by
  have hmod : (g.message_counter + 1) % U16 = g.message_counter + 1 :=
    Nat.mod_eq_of_lt (by simp only [U16]; omega)
  unfold loop
  simp only [hstart, h, and_self, if_true, hmsg, Option.bind_eq_bind, Option.some_bind, hmod]
  by_cases h2 : g.message_counter + 1 = 2000
  · simp [h2]
  · simp [h2, hstart]

/-- A run that starts with `start_test` set and fewer than 2000 messages sent: it sends
at the due steps until the counter reaches 2000. -/
theorem run_spec (c : Config) (T : Bool) (frame : data_frame) (text : List Nat)
    (times : List Nat) :
    ∀ g : Globals, g.start_test = true → g.message_counter < 2000 →
      loop_message c T g.chip_id frame = some text →
      ∃ (g' : Globals) (outs : List (List Nat)),
        run c T frame g times = some (g', outs)
        ∧ outs.length
            = min (2000 - g.message_counter)
                (due_steps g.interval_millis g.previous_millis times)
        ∧ (∀ o ∈ outs, o = text)
        ∧ g'.message_counter = g.message_counter + outs.length
        ∧ (g'.start_test = false ↔ outs.length = 2000 - g.message_counter) := by
  induction times with
  | nil =>
    intro g hstart hcount _
    refine ⟨g, [], rfl, ?_, by simp, by simp, ?_⟩
    · simp [due_steps]
    · simp only [hstart, List.length_nil]
      constructor
      · intro h; cases h
      · intro h; omega
  | cons now rest ih =>
    intro g hstart hcount hmsg
    by_cases hdue : elapsed (now % U32) g.previous_millis ≥ g.interval_millis
    · have hl := loop_due c T frame g now text hstart hcount hmsg hdue
      by_cases hlast : g.message_counter + 1 = 2000
      · have hs := run_stopped c T frame
          { g with previous_millis := now % U32,
                   message_counter := g.message_counter + 1,
                   start_test := decide (g.message_counter + 1 ≠ 2000) }
          (by simp [hlast]) rest
        refine ⟨{ g with previous_millis := now % U32,
                         message_counter := g.message_counter + 1,
                         start_test := decide (g.message_counter + 1 ≠ 2000) },
          [text], ?_, ?_, ?_, ?_, ?_⟩
        · unfold run
          rw [hl]
          simp only [hs]
          rfl
        · simp only [due_steps, if_pos hdue, List.length_singleton]
          omega
        · simp
        · simp
        · simp only [List.length_singleton, hlast, decide_not, decide_True, Bool.not_true]
          constructor
          · intro _; omega
          · intro _; trivial
      · obtain ⟨g', outs, hrun, hlen, hall, hcnt, hstop⟩ := ih
          { g with previous_millis := now % U32,
                   message_counter := g.message_counter + 1,
                   start_test := decide (g.message_counter + 1 ≠ 2000) }
          (by simp [hlast]) (by simp only; omega) hmsg
        refine ⟨g', text :: outs, ?_, ?_, ?_, ?_, ?_⟩
        · unfold run
          rw [hl]
          simp only [hrun]
          rfl
        · simp only [due_steps, if_pos hdue, List.length_cons]
          simp only at hlen
          omega
        · intro o ho
          rcases List.mem_cons.mp ho with h | h
          · exact h
          · exact hall o h
        · simp only [List.length_cons]
          simp only at hcnt
          omega
        · simp only [List.length_cons]
          simp only at hstop hlen
          rw [hstop]
          omega
    · have hl := loop_not_due c T frame g now hdue
      obtain ⟨g', outs, hrun, hlen, hall, hcnt, hstop⟩ := ih g hstart hcount hmsg
      refine ⟨g', outs, ?_, ?_, hall, hcnt, hstop⟩
      · unfold run
        rw [hl]
        simp only [hrun]
        rfl
      · simp only [due_steps, if_neg hdue]
        exact hlen


theorem cstr_of_mem (buf : List Nat) (h : 0 ∈ buf) : ∃ t, cstr buf = some t := by
  induction buf with
  | nil => simp at h
  | cons b bs ih =>
    unfold cstr
    by_cases hb : b = 0
    · exact ⟨[], by simp [hb]⟩
    · have hmem : 0 ∈ bs := by
        rcases List.mem_cons.mp h with h | h
        · exact absurd h.symm hb
        · exact h
      obtain ⟨t, ht⟩ := ih hmem
      exact ⟨b :: t, by simp [hb, ht]⟩

theorem build_data_frame_eq (c : Config) (T : Bool) (chip_id : List Nat) (frame : data_frame)
    (val_text : List Nat) (hfit : val_text.length + 1 ≤ frame.measurement.bytes.length)
    (hchip : chip_id.length = c.NODE_ID_SIZE + 1)
    (hnode : frame.node_id.length = c.NODE_ID_SIZE + 1) :
    build_data_frame c chip_id frame T val_text
      = some ⟨if T then c.TEMPERATURE_TYPE else c.HUMIDITY_TYPE,
          ⟨val_text ++ 0 :: frame.measurement.bytes.drop (val_text.length + 1)⟩,
          chip_id, frame.checksum⟩ := by
  have hw : write frame.measurement.bytes 0 (val_text ++ [0])
      = some (val_text ++ 0 :: frame.measurement.bytes.drop (val_text.length + 1)) := by
    unfold write
    rw [if_pos (by simp; omega)]
    simp
  have hs : slice chip_id 0 (c.NODE_ID_SIZE + 1) = some chip_id := by
    unfold slice
    rw [if_pos (by omega)]
    simp [← hchip]
  have hn : write frame.node_id 0 chip_id = some chip_id := by
    unfold write
    rw [if_pos (by omega)]
    simp [hchip, ← hnode]
  unfold build_data_frame
  cases T <;>
    simp [data.temperature, data.humidity, hw, hs, hn]

/-- The message of `loop` is defined: with at least five measurement characters, a tag
other than NUL, arrays of the declared sizes and a terminated text in `chip_id`,
`build_data_frame` and `get_message` stay inside their buffers. -/
theorem loop_message_defined (c : Config) (hc : c.wf) (T : Bool) (hD : 5 ≤ c.DATA_SIZE)
    (htag : (if T then c.TEMPERATURE_TYPE else c.HUMIDITY_TYPE) ≠ 0)
    (id it : List Nat) (frame : data_frame)
    (hid : ∀ b ∈ id, b ≠ 0) (hchip : (id ++ 0 :: it).length = c.NODE_ID_SIZE + 1)
    (hmeas : frame.measurement.bytes.length = c.DATA_SIZE + 1)
    (hnode : frame.node_id.length = c.NODE_ID_SIZE + 1)
    (hck : frame.checksum.length = c.CHECKSUM_SIZE + 1) :
    ∃ text, loop_message c T (id ++ 0 :: it) frame = some text := by
  have hM := hc.message_size
  have h5 : txt_1000.length = 5 := rfl
  have hb := build_data_frame_eq c T (id ++ 0 :: it) frame txt_1000 (by omega) hchip hnode
  have h10 : ∀ b ∈ txt_1000, b ≠ 0 := by decide
  have hrep : List.replicate c.MESSAGE_SIZE 0
      = 0 :: 0 :: 0 :: List.replicate (c.MESSAGE_SIZE - 3) 0 := by
    rw [show c.MESSAGE_SIZE = (c.MESSAGE_SIZE - 3) + 1 + 1 + 1 by omega]
    simp [List.replicate_succ]
  have hle := fmt_checksum_length_le c hc
    ⟨if T then c.TEMPERATURE_TYPE else c.HUMIDITY_TYPE,
      ⟨txt_1000 ++ 0 :: frame.measurement.bytes.drop (txt_1000.length + 1)⟩,
      id ++ 0 :: it, frame.checksum⟩
  have hidl : id.length ≤ c.NODE_ID_SIZE := by
    simp only [List.length_append, List.length_cons] at hchip
    omega
  have hg := get_message_eq c 0 0 0 (if T then c.TEMPERATURE_TYPE else c.HUMIDITY_TYPE)
    (List.replicate (c.MESSAGE_SIZE - 3) 0) txt_1000
    (frame.measurement.bytes.drop (txt_1000.length + 1)) id it frame.checksum
    hc.start_ne htag h10 hid (by omega) (by rw [List.length_replicate]; omega)
  unfold loop_message
  simp only [hb, Option.bind_eq_bind, Option.some_bind, hrep, hg]
  generalize hX : ([c.START_SIGN, if T then c.TEMPERATURE_TYPE else c.HUMIDITY_TYPE]
      ++ txt_1000 ++ id
      ++ fmt_02x (checksum c ⟨if T then c.TEMPERATURE_TYPE else c.HUMIDITY_TYPE,
          ⟨txt_1000 ++ 0 :: frame.measurement.bytes.drop (txt_1000.length + 1)⟩,
          id ++ 0 :: it, frame.checksum⟩)
      ++ 0 :: List.drop (txt_1000.length + id.length
          + (fmt_02x (checksum c ⟨if T then c.TEMPERATURE_TYPE else c.HUMIDITY_TYPE,
              ⟨txt_1000 ++ 0 :: frame.measurement.bytes.drop (txt_1000.length + 1)⟩,
              id ++ 0 :: it, frame.checksum⟩)).length)
          (List.replicate (c.MESSAGE_SIZE - 3) 0)) = X
  have hXl : X.length = c.MESSAGE_SIZE := by
    rw [← hX]
    simp only [List.length_append, List.length_cons, List.length_nil, List.length_drop,
      List.length_replicate]
    omega
  rw [store_lt _ _ _ (by omega)]
  simp only [Option.some_bind]
  rw [store_lt _ _ _ (by rw [List.length_set]; omega)]
  simp only [Option.map_some', Option.some_bind]
  apply cstr_of_mem
  exact List.mem_iff_getElem?.mpr ⟨c.MESSAGE_SIZE - 1,
    List.getElem?_set_self (by rw [List.length_set]; omega)⟩

/-- C18: bounded test run. From `start_test = true` and `message_counter = 0`, and with
the message of `loop` defined, every sequence of calls of `loop` broadcasts that
message at the steps at which at least `interval_millis` has elapsed (in 32-bit
arithmetic) since the previous send, up to 2000 times and never more; `message_counter`
counts the sends; `start_test` is false exactly once 2000 messages are sent, and from
then on no call broadcasts or changes the globals. A call of `loop` with
`start_test = false` never broadcasts and leaves `message_counter` and
`previous_millis` as they are. -/
theorem C18_bounded_test_run (c : Config) (T : Bool) (frame : data_frame) (g : Globals)
    (text : List Nat) (hstart : g.start_test = true) (hcount : g.message_counter = 0)
    (hmsg : loop_message c T g.chip_id frame = some text) :
    (∀ times : List Nat, ∃ (g' : Globals) (outs : List (List Nat)),
        run c T frame g times = some (g', outs)
        ∧ outs.length = min 2000 (due_steps g.interval_millis g.previous_millis times)
        ∧ (∀ o ∈ outs, o = text)
        ∧ g'.message_counter = outs.length
        ∧ (g'.start_test = false ↔ outs.length = 2000)
        ∧ (g'.start_test = false →
            ∀ more : List Nat, run c T frame g' more = some (g', [])))
    ∧ (∀ (h : Globals) (now : Nat), h.start_test = false →
        loop c T frame h now = some (h, none)) := by
  refine ⟨?_, fun h now hh => loop_stopped c T frame h now hh⟩
  intro times
  obtain ⟨g', outs, hrun, hlen, hall, hcnt, hstop⟩ :=
    run_spec c T frame text times g hstart (by omega) hmsg
  rw [hcount] at hlen hcnt hstop
  refine ⟨g', outs, hrun, hlen, hall, by omega, hstop, ?_⟩
  intro hfalse more
  exact run_stopped c T frame g' hfalse more

/-- C18 at the node `"AB12345678"` with the constants `cfg`: the message is
`$T10.00AB123456787d#`, and of the six calls at the times 50, 100, 150, 200,
2^32 + 250 and 300 the three at 100, 200 and 300 send. -/
theorem C18_bounded_test_run_witness :
    globals_start.start_test = true ∧ globals_start.message_counter = 0
    ∧ loop_message cfg true globals_start.chip_id frame_blank
        = some [36, 84, 49, 48, 46, 48, 48, 65, 66, 49, 50, 51, 52, 53, 54, 55, 56, 55, 100, 35]
    ∧ due_steps 100 0 [50, 100, 150, 200, 4294967296 + 250, 300] = 3
    ∧ ∃ (g' : Globals) (outs : List (List Nat)),
        run cfg true frame_blank globals_start [50, 100, 150, 200, 4294967296 + 250, 300]
          = some (g', outs)
        ∧ outs.length = min 2000
            (due_steps globals_start.interval_millis globals_start.previous_millis
              [50, 100, 150, 200, 4294967296 + 250, 300])
        ∧ (∀ o ∈ outs,
            o = [36, 84, 49, 48, 46, 48, 48, 65, 66, 49, 50, 51, 52, 53, 54, 55, 56, 55, 100, 35])
        ∧ g'.message_counter = outs.length
        ∧ (g'.start_test = false ↔ outs.length = 2000)
        ∧ (g'.start_test = false →
            ∀ more : List Nat, run cfg true frame_blank g' more = some (g', [])) :=
  ⟨rfl, rfl, by decide, by decide,
    (C18_bounded_test_run cfg true frame_blank globals_start
      [36, 84, 49, 48, 46, 48, 48, 65, 66, 49, 50, 51, 52, 53, 54, 55, 56, 55, 100, 35]
      rfl rfl (by decide)).1 [50, 100, 150, 200, 4294967296 + 250, 300]⟩

/-! ## The local identity -/

theorem toDec_range (fuel n : Nat) : ∀ b ∈ toDec fuel n, 48 ≤ b ∧ b ≤ 57 := by
  induction fuel generalizing n with
  | zero => intro b hb; simp [toDec] at hb
  | succ f ih =>
    intro b hb
    unfold toDec at hb
    by_cases h : n < 10
    · rw [if_pos h, List.mem_singleton] at hb
      omega
    · rw [if_neg h] at hb
      rcases List.mem_append.mp hb with hb | hb
      · exact ih _ b hb
      · rw [List.mem_singleton] at hb
        omega

theorem toDec_length_le (fuel n : Nat) : (toDec fuel n).length ≤ fuel := by
  induction fuel generalizing n with
  | zero => simp [toDec]
  | succ f ih =>
    unfold toDec
    by_cases h : n < 10
    · rw [if_pos h]; simp
    · rw [if_neg h]
      have := ih (n / 10)
      simp only [List.length_append, List.length_cons, List.length_nil]
      omega

theorem toDec_length_ge (fuel : Nat) :
    ∀ n k : Nat, 10 ^ k ≤ n → k < fuel → k + 1 ≤ (toDec fuel n).length := by
  induction fuel with
  | zero => intro n k _ hk; omega
  | succ f ih =>
    intro n k hn hk
    unfold toDec
    by_cases h : n < 10
    · rw [if_pos h]
      cases k with
      | zero => simp
      | succ k =>
        have : 10 ^ 1 ≤ 10 ^ (k + 1) := Nat.pow_le_pow_right (by omega) (by omega)
        omega
    · rw [if_neg h]
      simp only [List.length_append, List.length_cons, List.length_nil]
      cases k with
      | zero => omega
      | succ k =>
        have hdiv : 10 ^ k ≤ n / 10 := by
          rw [Nat.le_div_iff_mul_le (by omega)]
          rw [pow_succ] at hn
          exact hn
        have := ih (n / 10) k hdiv (by omega)
        omega

/-- For a chip id of eight to ten decimal digits and `NODE_ID_SIZE = 10`, `setup` leaves
in the zero-filled `chip_id` a text of exactly ten characters and its terminator. -/
theorem setup_full_width (c : Config) (hN : c.NODE_ID_SIZE = 10) (id : Nat)
    (hlo : 10000000 ≤ id) (hhi : id < 4294967296) :
    ∃ t : List Nat,
      setup c (List.replicate (c.NODE_ID_SIZE + 1) 0) id = some (t ++ [0])
      ∧ t.length = c.NODE_ID_SIZE ∧ (∀ b ∈ t, b ≠ 0) ∧ cstr (t ++ [0]) = some t := by
  have hmod : id % 4294967296 = id := Nat.mod_eq_of_lt hhi
  have hge : 8 ≤ (fmt_u id).length := by
    unfold fmt_u
    rw [hmod]
    exact toDec_length_ge 10 id 7 (by omega) (by omega)
  have hle : (fmt_u id).length ≤ 10 := toDec_length_le 10 _
  have hr : ∀ b ∈ fmt_u id, 48 ≤ b ∧ b ≤ 57 := toDec_range 10 _
  unfold setup sprintf_u
  rw [hN]
  generalize fmt_u id = ds at hge hle hr
  match ds, hge, hle, hr with
  | [d0, d1, d2, d3, d4, d5, d6, d7], _, _, hr =>
    have hall : ∀ b ∈ [d0, d1, d2, d3, d4, d5, d6, d7, d0, d7], b ≠ 0 := by
      intro b hb
      simp only [List.mem_cons, List.mem_singleton, List.not_mem_nil, or_false] at hb
      rcases hb with h | h | h | h | h | h | h | h | h | h <;>
        (subst h; have := hr b (by simp); omega)
    exact ⟨[d0, d1, d2, d3, d4, d5, d6, d7, d0, d7], by simp [write, store], by simp, hall,
      cstr_text _ [] hall⟩
  | [d0, d1, d2, d3, d4, d5, d6, d7, d8], _, _, hr =>
    have hall : ∀ b ∈ [d0, d1, d2, d3, d4, d5, d6, d7, d0, d7], b ≠ 0 := by
      intro b hb
      simp only [List.mem_cons, List.mem_singleton, List.not_mem_nil, or_false] at hb
      rcases hb with h | h | h | h | h | h | h | h | h | h <;>
        (subst h; have := hr b (by simp); omega)
    exact ⟨[d0, d1, d2, d3, d4, d5, d6, d7, d0, d7], by simp [write, store], by simp, hall,
      cstr_text _ [] hall⟩
  | [d0, d1, d2, d3, d4, d5, d6, d7, d8, d9], _, _, hr =>
    have hall : ∀ b ∈ [d0, d1, d2, d3, d4, d5, d6, d7, d0, d7], b ≠ 0 := by
      intro b hb
      simp only [List.mem_cons, List.mem_singleton, List.not_mem_nil, or_false] at hb
      rcases hb with h | h | h | h | h | h | h | h | h | h <;>
        (subst h; have := hr b (by simp); omega)
    exact ⟨[d0, d1, d2, d3, d4, d5, d6, d7, d0, d7], by simp [write, store], by simp, hall,
      cstr_text _ [] hall⟩

/-- C16 at the chip id 1234567: `"%u"` writes seven digits and a terminator at index 7,
`chip_id[9] := chip_id[7]` copies that terminator, and the identity is the text
`"1234567"` of seven characters, not of `NODE_ID_SIZE = 10`. The message that `loop`
then builds is cut after 16 characters and has no end sentinel. -/
theorem C16_short_chip_id :
    setup cfg (List.replicate (cfg.NODE_ID_SIZE + 1) 0) 1234567
      = some [49, 50, 51, 52, 53, 54, 55, 0, 49, 0, 0]
    ∧ cstr [49, 50, 51, 52, 53, 54, 55, 0, 49, 0, 0] = some [49, 50, 51, 52, 53, 54, 55]
    ∧ [49, 50, 51, 52, 53, 54, 55].length ≠ cfg.NODE_ID_SIZE
    ∧ loop_message cfg true [49, 50, 51, 52, 53, 54, 55, 0, 49, 0, 0] frame_blank
      = some [36, 84, 49, 48, 46, 48, 48, 49, 50, 51, 52, 53, 54, 55, 102, 51] := by
  decide

end Mesh
